import Mathlib

/-!
# go-request: option builder, response classifier and execution engine

A shallow embedding of `errors.go`, `helpers.go`, `interfaces.go` and
`request.go`, with the mock transport of `request_test.go`.

Conventions of the embedding.

* A Go `string` and a Go `[]byte` are both embedded as a Lean `String`; the
  conversions between the two are the identity. `len(s) == 0` is
  `s.length = 0`.
* A Go pointer or interface value that may be `nil` is an `Option`; `nil` is
  `none`. Using a `nil` one where Go dereferences it is a `crash`.
* A Go function that mutates what a pointer designates takes the designated
  value and returns its state after the call.
* A `map[string][]string` is an association list, in the order in which a
  `range` loop visits its keys.
* Routines of the Go standard library that the package calls are fields of
  `Stdlib`, except the few whose behaviour the development needs, which are
  written out (`validMethod`, `Values.Add`, `Header.Add`, `io.ReadAll`,
  `path.Join`, `path.Clean`).
* `Exec` records, next to the result, the calls made to the injected or
  external capabilities, in the order they were made.
-/

namespace GoRequest

/-! ## Results, errors, contexts -/

/-- Result of running Go code that either returns or panics. -/
inductive Result (α : Type) where
  | ret (a : α)
  | crash (msg : String)

/-- A `context.Context`: the background context, or one derived from another. -/
inductive Context where
  | background
  | todo
  | derived (parent : Context) (id : Nat)
  deriving DecidableEq

/-- The struct `ResponseError` of errors.go. -/
structure ResponseError where
  message : String
  deriving DecidableEq

/-- Method `Error` of `ResponseError` (value receiver, so also in the method
set of `*ResponseError`). -/
def ResponseError.Error (e : ResponseError) : String :=
  "request failed: " ++ e.message

/-- A non-nil value of the interface `error`, by dynamic type: a
`ResponseError` held by value, a `*ResponseError`, or an error of any other
type, given by its text. -/
inductive GoError where
  | value (e : ResponseError)
  | pointer (e : ResponseError)
  | other (text : String)
  deriving DecidableEq

/-- The text `err.Error()` of an error. -/
def GoError.Error : GoError → String
  | .value e => e.Error
  | .pointer e => e.Error
  | .other text => text

/-- Function `NewResponseError` of errors.go: returns `&ResponseError{...}`, a pointer. -/
def NewResponseError (statusCode : Int) (body : String) : GoError :=
  .pointer { message := "response not OK, status: " ++ toString statusCode ++ ", body: " ++ body }

/-- Function `IsResponseErr` of errors.go: the type assertion `err.(ResponseError)`
succeeds exactly when the dynamic type of `err` is the value type. -/
def IsResponseErr (err : Option GoError) : Bool :=
  match err with
  | some (.value _) => true
  | _ => false

/-! ## Requests and responses -/

/-- An `io.ReadCloser` over an in-memory stream: the bytes not yet read,
whether `Close` has been called, and how many read and close operations it
has received. -/
structure ReadCloser where
  data : String
  closed : Bool
  reads : Nat
  closes : Nat
  deriving DecidableEq

/-- A stream holding `content` on which nothing has been done yet. -/
def ReadCloser.fresh (content : String) : ReadCloser :=
  { data := content, closed := false, reads := 0, closes := 0 }

/-- The bytes a read can still obtain: none once the stream is closed. -/
def ReadCloser.available (rc : ReadCloser) : String :=
  if rc.closed then "" else rc.data

/-- Function `io.ReadAll`: reads to the end of the stream, returns what was read. -/
def ReadAll (rc : ReadCloser) : String × ReadCloser :=
  (rc.available, { rc with data := "", reads := rc.reads + 1 })

/-- Method `Close` of an `io.ReadCloser`. -/
def ReadCloser.Close (rc : ReadCloser) : ReadCloser :=
  { rc with closed := true, closes := rc.closes + 1 }

/-- Function `closeBody` of helpers.go: `_ = body.Close()`; a nil body panics. -/
def closeBody (body : Option ReadCloser) : Result ReadCloser :=
  match body with
  | none => .crash "nil pointer dereference"
  | some rc => .ret rc.Close

/-- The fields of `http.Response` the package reads or writes. -/
structure Response where
  StatusCode : Int
  Body : Option ReadCloser
  deriving DecidableEq

/-- A `map[string][]string`, keys in iteration order. -/
abbrev StringsMap := List (String × List String)

/-- Append to a map entry, `m[k] = append(m[k], v)`. -/
def appendValue (m : StringsMap) (k v : String) : StringsMap :=
  match m with
  | [] => [(k, [v])]
  | (k0, vs) :: rest =>
    if k0 = k then (k0, vs ++ [v]) :: rest else (k0, vs) :: appendValue rest k v

/-- The fields of `url.URL` the package sets. -/
structure URL where
  Scheme : String
  Host : String
  Path : String
  RawQuery : String
  deriving DecidableEq

/-- The fields of `http.Request` the package sets, with its context. -/
structure Request where
  ctx : Context
  Method : String
  URL : URL
  Header : StringsMap
  Body : String
  Host : String
  deriving DecidableEq

/-- Method `WithContext` of `*http.Request`: panics on a nil context, else
returns a copy of the request carrying `ctx`; the receiver is unchanged. -/
def Request.WithContext (r : Option Request) (ctx : Option Context) : Result Request :=
  match ctx with
  | none => .crash "nil context"
  | some c =>
    match r with
    | none => .crash "nil pointer dereference"
    | some req => .ret { req with ctx := c }

/-- Interface `Client` of interfaces.go: `Do(r) (*http.Response, error)`. -/
abbrev Client := Request → Result (Option Response × Option GoError)

/-- Type `ResponseHandler` of request.go: a function of the response pointer;
it returns the state of the response after the call and its `error`. -/
abbrev ResponseHandler := Option Response → Result (Option Response × Option GoError)

/-! ## The builder and its options -/

/-- Type `Method` of request.go. -/
abbrev Method := String

/-- Type `Scheme` of request.go. -/
abbrev Scheme := String

def Get : Method := "GET"
def Delete : Method := "DELETE"
def Patch : Method := "PATCH"
def Post : Method := "POST"
def Put : Method := "PUT"

def HTTP : Scheme := "http"
def HTTPS : Scheme := "https"

def defaultScheme : Scheme := HTTP
def defaultMethod : Method := Get

/-- Struct `builder` of request.go. -/
structure builder where
  client : Option Client
  req : Option Request
  scheme : Scheme
  method : Method
  host : String
  path : String
  headers : Option StringsMap
  queryArgs : Option StringsMap
  body : String
  responseHandler : Option ResponseHandler

/-- The zero value `var b builder`. -/
def builder.zero : builder :=
  { client := none, req := none, scheme := "", method := "", host := "", path := "",
    headers := none, queryArgs := none, body := "", responseHandler := none }

/-- Type `Option` of request.go, `func(*builder)`: the state of the builder
after the call, or a panic. -/
abbrev BuilderOption := builder → Result builder

def WithMethod (method : Method) : BuilderOption :=
  fun b => .ret { b with method := method }

def WithScheme (scheme : Scheme) : BuilderOption :=
  fun b => .ret { b with scheme := scheme }

def WithHost (host : String) : BuilderOption :=
  fun b => .ret { b with host := host }

/-- Function `WithPath` of request.go, over `path.Join` (here `join`). With no chunk
the guard `len(chunks) > 0` fails and `chunks[0]` is evaluated. -/
def WithPath (join : List String → String) (chunks : List String) : BuilderOption :=
  fun b =>
    if chunks.length > 0 then .ret { b with path := join chunks }
    else
      match chunks[0]? with
      | some c => .ret { b with path := c }
      | none => .crash "index out of range [0] with length 0"

def WithHeaders (headers : Option StringsMap) : BuilderOption :=
  fun b => .ret { b with headers := headers }

def WithQueryArgs (queryArgs : Option StringsMap) : BuilderOption :=
  fun b => .ret { b with queryArgs := queryArgs }

def WithBody (body : String) : BuilderOption :=
  fun b => .ret { b with body := body }

def WithClient (c : Option Client) : BuilderOption :=
  fun b => .ret { b with client := c }

def WithResponseHandler (rh : Option ResponseHandler) : BuilderOption :=
  fun b => .ret { b with responseHandler := rh }

/-- The loop `for _, o := range opts { o(&b) }` of `NewRequester`. -/
def applyOptions (opts : List BuilderOption) (b : builder) : Result builder :=
  match opts with
  | [] => .ret b
  | o :: rest =>
    match o b with
    | .ret b1 => applyOptions rest b1
    | .crash msg => .crash msg

/-! ## The default response handler -/

/-- The ten keys of the map `successCodes` in `defaultResponseHandler`:
`http.StatusOK`, `StatusCreated`, `StatusAccepted`,
`StatusNonAuthoritativeInfo`, `StatusNoContent`, `StatusResetContent`,
`StatusPartialContent`, `StatusMultiStatus`, `StatusAlreadyReported`,
`StatusIMUsed`. -/
def successCodes : List Int := [200, 201, 202, 203, 204, 205, 206, 207, 208, 226]

/-- The eight keys of the map `redirectCodes`: `http.StatusMultipleChoices`,
`StatusMovedPermanently`, `StatusFound`, `StatusSeeOther`,
`StatusNotModified`, `StatusUseProxy`, `StatusTemporaryRedirect`,
`StatusPermanentRedirect`. -/
def redirectCodes : List Int := [300, 301, 302, 303, 304, 305, 307, 308]

/-- Function `defaultResponseHandler` of helpers.go. In the failure branch the
deferred `closeBody(resp.Body)` runs after `io.ReadAll` and after the error
value has been built. -/
def defaultResponseHandler : ResponseHandler :=
  fun resp =>
    match resp with
    | none => .crash "nil pointer dereference"
    | some r =>
      if r.StatusCode ∈ successCodes then .ret (some r, none)
      else if r.StatusCode ∈ redirectCodes then .ret (some r, none)
      else
        match r.Body with
        | none => .crash "nil pointer dereference"
        | some body =>
          let (b, body1) := ReadAll body
          let err := NewResponseError r.StatusCode b
          match closeBody (some body1) with
          | .crash msg => .crash msg
          | .ret body2 => .ret (some { r with Body := some body2 }, some err)

/-! ## Standard library -/

/-- The routines of the Go standard library that the package calls and that
stay abstract here. -/
structure Stdlib where
  /-- Routine `path.Join` -/
  pathJoin : List String → String
  /-- Method `String` of `url.URL` -/
  urlString : URL → String
  /-- Routine `url.Parse` -/
  urlParse : String → Except GoError URL
  /-- The unexported `removeEmptyPort` of net/http -/
  removeEmptyPort : String → String
  /-- Routine `strconv.Quote`, the verb `%q` -/
  quote : String → String
  /-- Method `Query` of `url.URL`, as a function of `RawQuery` -/
  parseQuery : String → StringsMap
  /-- Method `Encode` of `url.Values` -/
  encodeQuery : StringsMap → String
  /-- Routine `textproto.CanonicalMIMEHeaderKey` -/
  canonicalKey : String → String
  /-- The verb `%v` of package fmt on a `builder` -/
  sprintBuilder : builder → String
  /-- Routine `http.DefaultClient` -/
  defaultClient : Client

/-- Routine `httpguts.IsTokenRune`: the characters of an HTTP token, which are the
ASCII letters and digits and the fifteen marks with the code points listed
(exclamation mark, number sign, dollar, percent, ampersand, apostrophe,
asterisk, plus, hyphen, full stop, caret, underscore, grave accent, vertical
bar, tilde). -/
def isTokenRune (c : Char) : Bool :=
  c.isAlphanum || c.toNat ∈ [33, 35, 36, 37, 38, 39, 42, 43, 45, 46, 94, 95, 96, 124, 126]

/-- The unexported `validMethod` of net/http: a non-empty token. -/
def validMethod (method : String) : Bool :=
  method.length > 0 && method.toList.all isTokenRune

/-- Function `http.NewRequest(method, url, body)` with a `*bytes.Buffer` body: that is
`NewRequestWithContext` under `context.Background()`. -/
def NewRequest (std : Stdlib) (method url body : String) : Except GoError Request :=
  let method := if method = "" then "GET" else method
  if validMethod method = false then
    .error (.other ("net/http: invalid method " ++ std.quote method))
  else
    match std.urlParse url with
    | .error err => .error err
    | .ok u =>
      let u := { u with Host := std.removeEmptyPort u.Host }
      .ok { ctx := .background, Method := method, URL := u, Header := [], Body := body,
            Host := u.Host }

/-- Function `formatURL` of helpers.go. -/
def formatURL (scheme : Scheme) (host path : String) : URL :=
  { Scheme := scheme, Host := host, Path := path, RawQuery := "" }

/-- Method `Add` of `url.Values`. -/
def Values.Add (q : StringsMap) (key value : String) : StringsMap :=
  appendValue q key value

/-- Method `Add` of `http.Header`: the key is canonicalised first. -/
def Header.Add (std : Stdlib) (h : StringsMap) (key value : String) : StringsMap :=
  appendValue h (std.canonicalKey key) value

/-- Function `addQueryArgs` of helpers.go. -/
def addQueryArgs (std : Stdlib) (r : Request) (args : StringsMap) : Request :=
  let q := std.parseQuery r.URL.RawQuery
  let q := args.foldl (fun q kv => kv.2.foldl (fun q v => Values.Add q kv.1 v) q) q
  { r with URL := { r.URL with RawQuery := std.encodeQuery q } }

/-- Function `addHeaders` of helpers.go. -/
def addHeaders (std : Stdlib) (r : Request) (headers : StringsMap) : Request :=
  { r with
    Header := headers.foldl (fun h kv => kv.2.foldl (fun h v => Header.Add std h kv.1 v) h)
      r.Header }

/-! ## Execution with a record of calls -/

/-- A call to an injected or external capability. -/
inductive Call where
  /-- Call `http.NewRequest(method, url, body)` -/
  | NewRequest (method url body : String)
  /-- Call `b.client.Do(req)` -/
  | Do (req : Request)
  /-- Call `b.responseHandler(resp)` -/
  | responseHandler (resp : Option Response)
  /-- Call `json.NewDecoder(body).Decode(&target)`, with the bytes it can read -/
  | Decode (input : String)
  /-- Call `closeBody(body)` run by the engine -/
  | closeBody

/-- Result of running package code: the value returned with the calls made,
oldest first, or a panic. -/
inductive Exec (α : Type) where
  | done (a : α) (calls : List Call)
  | crash (msg : String)

/-- The result `x` of a continuation, after the calls `calls` made before it. -/
def Exec.after {β : Type} (calls : List Call) (x : Exec β) : Exec β :=
  match x with
  | .crash msg => .crash msg
  | .done b calls1 => .done b (calls ++ calls1)

/-- Sequencing: the calls of the second part follow those of the first. -/
def Exec.bind {α β : Type} (x : Exec α) (f : α → Exec β) : Exec β :=
  match x with
  | .crash msg => .crash msg
  | .done a calls => Exec.after calls (f a)

instance : Monad Exec where
  pure a := .done a []
  bind := Exec.bind

/-- Code that makes no recorded call. -/
def Exec.ofResult {α : Type} (r : Result α) : Exec α :=
  match r with
  | .ret a => .done a []
  | .crash msg => .crash msg

/-- A recorded call and its result. -/
def Exec.call {α : Type} (c : Call) (r : Result α) : Exec α :=
  match r with
  | .ret a => .done a [c]
  | .crash msg => .crash msg

/-- Use of a pointer, interface or function value that may be nil. -/
def Exec.deref {α : Type} (p : Option α) : Exec α :=
  match p with
  | some a => .done a []
  | none => .crash "nil pointer dereference"

/-! ## The engine -/

/-- What `json.NewDecoder(body).Decode(&target)` does with the bytes it can
read from the body and the present value of the target: the target
afterwards, the error returned, and the bytes it leaves unread. -/
structure Decoded (τ : Type) where
  target : τ
  err : Option GoError
  rest : String

/-- The decoding routine of encoding/json, for targets of type `τ`. -/
abbrev Decoder (τ : Type) := String → τ → Decoded τ

/-- Reading a body through a decoder. -/
def ReadCloser.decode {τ : Type} (rc : ReadCloser) (dec : Decoder τ) (target : τ) :
    Decoded τ × ReadCloser :=
  let d := dec rc.available target
  (d, { rc with data := if rc.closed then rc.data else d.rest, reads := rc.reads + 1 })

/-- What `Make` returns, `(*http.Response, error)`, with the state of the
target after the call. -/
structure MakeResult (τ : Type) where
  resp : Option Response
  err : Option GoError
  target : Option τ

/-- Method `Make` of `*builder` in request.go. The value of
`b.req.WithContext(ctx)` is dropped, as in the source. The deferred
`closeBody(resp.Body)` takes its argument before the decoding and runs after
it. -/
def builder.Make {τ : Type} (dec : Decoder τ) (b : builder) (ctx : Option Context)
    (target : Option τ) : Exec (MakeResult τ) := do
  let _ ← Exec.ofResult (Request.WithContext b.req ctx)
  let client ← Exec.deref b.client
  let req ← Exec.deref b.req
  let (resp, err) ← Exec.call (.Do req) (client req)
  if err ≠ none then
    return { resp := none, err := err, target := target }
  let handler ← Exec.deref b.responseHandler
  let (resp, rErr) ← Exec.call (.responseHandler resp) (handler resp)
  if rErr ≠ none then
    return { resp := resp, err := rErr, target := target }
  match target with
  | none => return { resp := resp, err := none, target := none }
  | some t =>
    let r ← Exec.deref resp
    let body ← Exec.deref r.Body
    let (d, body1) ← Exec.call (.Decode body.available) (.ret (body.decode dec t))
    let body2 ← Exec.call .closeBody (closeBody (some body1))
    return { resp := some { r with Body := some body2 }, err := d.err, target := some d.target }

/-- Function `NewRequester` of request.go. The requester returned is the builder. Each
`if cond { b.f = v }` of the source is the update of `b.f` to `v` when `cond`
holds and to itself otherwise. -/
def NewRequester (std : Stdlib) (opts : List BuilderOption) :
    Exec (Option builder × Option GoError) := do
  let b ← Exec.ofResult (applyOptions opts builder.zero)
  if b.host.length = 0 then
    return (none, some (.other ("missing host from request builder: " ++ std.sprintBuilder b)))
  let b := { b with scheme := if b.scheme.length = 0 then defaultScheme else b.scheme }
  let b := { b with method := if b.method.length = 0 then defaultMethod else b.method }
  let url := formatURL b.scheme b.host b.path
  let made ← Exec.call (.NewRequest b.method (std.urlString url) b.body)
    (.ret (NewRequest std b.method (std.urlString url) b.body))
  match made with
  | .error err => return (none, some err)
  | .ok req =>
    let req := match b.queryArgs with
      | some args => addQueryArgs std req args
      | none => req
    let req := match b.headers with
      | some headers => addHeaders std req headers
      | none => req
    let b := { b with client := if b.client.isNone then some std.defaultClient else b.client }
    let b := { b with
      responseHandler :=
        if b.responseHandler.isNone then some defaultResponseHandler else b.responseHandler }
    return (some { b with req := some req }, none)

/-! ## The mock transport of the tests -/

/-- Method `Do` of `mockedClient` in request_test.go; `marshalled` is the
result of `json.Marshal(m.target)`. -/
def mockedClient (status : Int) (marshalled : Except GoError String) (error : Option GoError) :
    Client :=
  fun _ =>
    match marshalled with
    | .error err => .ret (none, some err)
    | .ok out => .ret (some { StatusCode := status, Body := some (ReadCloser.fresh out) }, error)

/-! ## Values for the examples -/

/-- Struct `target` of request_test.go. -/
structure target where
  SomeValue : String
  deriving DecidableEq

/-- The text `json.Marshal` produces for a `target` whose string needs no
escaping: an object with the one key `SomeValue`. -/
def marshalTarget (t : target) : String :=
  "\x7b\"SomeValue\":\"" ++ t.SomeValue ++ "\"\x7d"

/-- A decoder for pointers to `target`, standing for encoding/json on the
texts of `marshalTarget` only: such a text sets the field, any other text is
refused and leaves the target as it was. -/
def decodeTarget : Decoder target :=
  fun input t =>
    let cs := input.toList
    let opening := "\x7b\"SomeValue\":\"".toList
    let closing := "\"\x7d".toList
    let value := (cs.drop opening.length).take (cs.length - opening.length - closing.length)
    if cs = opening ++ value ++ closing ∧
        value.all (fun c => c ≠ Char.ofNat 34 && c ≠ Char.ofNat 92 && 32 ≤ c.toNat) = true then
      { target := { SomeValue := String.mk value }, err := none, rest := "" }
    else
      { target := t, err := some (.other "json: cannot unmarshal into Go value"), rest := "" }

/-- Splits a URL text of the form `scheme://host/path?query`. -/
def exampleParse (text : String) : Except GoError URL :=
  let cs := text.toList
  let scheme := cs.takeWhile (fun c => c ≠ ':')
  let rest := cs.drop scheme.length
  if rest.take 3 = "://".toList ∧ scheme ≠ [] then
    let rest := rest.drop 3
    let host := rest.takeWhile (fun c => c ≠ '/' && c ≠ '?')
    let rest := rest.drop host.length
    let path := rest.takeWhile (fun c => c ≠ '?')
    let query := (rest.drop path.length).drop 1
    .ok { Scheme := String.mk scheme, Host := String.mk host, Path := String.mk path,
          RawQuery := String.mk query }
  else
    .error (.other ("parse " ++ text ++ ": missing protocol scheme"))

/-- A standard library for evaluating the examples. Each field agrees with
the Go routine it stands for on what the examples give it: schemes, hosts,
path chunks and header names made of ASCII letters, digits, hyphens and full
stops, and an empty raw query. The field `sprintBuilder` keeps the text
fields only and `defaultClient` is a transport without a network. The
theorems about the package do not depend on it: they hold for every
`Stdlib`. -/
def exampleStd : Stdlib where
  pathJoin chunks := "/".intercalate (chunks.filter (fun c => c ≠ ""))
  urlString u :=
    u.Scheme ++ "://" ++ u.Host ++
      (if u.Path = "" then "" else if u.Path.toList.head? = some '/' then u.Path
        else "/" ++ u.Path) ++
      (if u.RawQuery = "" then "" else "?" ++ u.RawQuery)
  urlParse := exampleParse
  removeEmptyPort host := host
  quote text := "\"" ++ text ++ "\""
  parseQuery _ := []
  encodeQuery q :=
    "&".intercalate (q.flatMap (fun kv => kv.2.map (fun v => kv.1 ++ "=" ++ v)))
  canonicalKey key := key.capitalize
  sprintBuilder b :=
    "\x7b" ++ " ".intercalate [b.scheme, b.method, b.host, b.path, b.body] ++ "\x7d"
  defaultClient := fun _ => .ret (none, some (.other "dial tcp: no network"))

/-- The request of the test "happy path defaults". -/
def exampleRequest : Request :=
  { ctx := .background, Method := "GET",
    URL := { Scheme := "http", Host := "strickland-propane.com", Path := "", RawQuery := "" },
    Header := [], Body := "", Host := "strickland-propane.com" }

/-- The requester of the tests "happy path defaults" (status 200) and "sad
path default handler with unacceptable status code" (status 420): host and
mock transport given, everything else defaulted. -/
def exampleRequester (status : Int) : builder :=
  { builder.zero with
    client := some (mockedClient status (.ok "null") none)
    req := some exampleRequest
    scheme := "http"
    method := "GET"
    host := "strickland-propane.com"
    responseHandler := some defaultResponseHandler }

/-! ## Package path of the standard library -/

/-- The inner loop of the `..` case of `path.Clean`, on the index `w` after
the first `out.w--`: `for out.w > dotdot && out.index(out.w) != '/' { out.w-- }`. -/
def path.backtrack (buf : List Char) (dotdot : Nat) : Nat → Nat
  | 0 => 0
  | w + 1 =>
    if w + 1 > dotdot ∧ buf.get? (w + 1) ≠ some '/' then path.backtrack buf dotdot w
    else w + 1

/-- The loop `for r < n` of `path.Clean`: `rest` is the path from index `r`
on, `out` the bytes written so far. Each turn consumes at least one byte of
`rest`, so a fuel of the length of `rest` lets the loop reach the end. -/
def path.cleanLoop (rooted : Bool) : Nat → List Char → List Char → Nat → List Char
  | 0, _, out, _ => out
  | fuel + 1, rest, out, dotdot =>
    match rest with
    | [] => out
    | c :: t =>
      if c = '/' then
        path.cleanLoop rooted fuel t out dotdot
      else if c = '.' ∧ (t = [] ∨ t.head? = some '/') then
        path.cleanLoop rooted fuel t out dotdot
      else if c = '.' ∧ t.head? = some '.' ∧ (t.tail = [] ∨ t.tail.head? = some '/') then
        if out.length > dotdot then
          path.cleanLoop rooted fuel t.tail
            (out.take (path.backtrack out dotdot (out.length - 1))) dotdot
        else if rooted = false then
          path.cleanLoop rooted fuel t.tail
            ((if out.length > 0 then out ++ ['/'] else out) ++ ['.', '.'])
            ((if out.length > 0 then out ++ ['/'] else out) ++ ['.', '.']).length
        else
          path.cleanLoop rooted fuel t.tail out dotdot
      else
        path.cleanLoop rooted fuel (rest.dropWhile (fun x => x ≠ '/'))
          ((if (rooted = true ∧ out.length ≠ 1) ∨ (rooted = false ∧ out.length ≠ 0)
              then out ++ ['/'] else out) ++ rest.takeWhile (fun x => x ≠ '/'))
          dotdot

/-- Function `path.Clean` of the standard library. -/
def path.Clean (p : String) : String :=
  if p = "" then "."
  else
    let rooted : Bool := p.toList.head? = some '/'
    let out :=
      path.cleanLoop rooted p.toList.length (if rooted then p.toList.tail else p.toList)
        (if rooted then ['/'] else []) (if rooted then 1 else 0)
    if out.length = 0 then "." else String.mk out

/-- Function `path.Join` of the standard library. -/
def path.Join (elem : List String) : String :=
  if (elem.map String.length).sum = 0 then ""
  else
    path.Clean
      (String.mk
        (elem.foldl
          (fun buf e =>
            if buf.length > 0 ∨ e ≠ "" then
              (if buf.length > 0 then buf ++ ['/'] else buf) ++ e.toList
            else buf)
          []))

/-! ## Calls of the option constructors -/

/-- A call of one of the nine option constructors of request.go, with its
arguments. -/
inductive OptionCall where
  | WithMethod (method : Method)
  | WithScheme (scheme : Scheme)
  | WithHost (host : String)
  | WithPath (chunks : List String)
  | WithHeaders (headers : Option StringsMap)
  | WithQueryArgs (queryArgs : Option StringsMap)
  | WithBody (body : String)
  | WithClient (c : Option Client)
  | WithResponseHandler (rh : Option ResponseHandler)

/-- The option a call returns, with `join` for `path.Join`. -/
def OptionCall.option (join : List String → String) : OptionCall → BuilderOption
  | .WithMethod method => GoRequest.WithMethod method
  | .WithScheme scheme => GoRequest.WithScheme scheme
  | .WithHost host => GoRequest.WithHost host
  | .WithPath chunks => GoRequest.WithPath join chunks
  | .WithHeaders headers => GoRequest.WithHeaders headers
  | .WithQueryArgs queryArgs => GoRequest.WithQueryArgs queryArgs
  | .WithBody body => GoRequest.WithBody body
  | .WithClient c => GoRequest.WithClient c
  | .WithResponseHandler rh => GoRequest.WithResponseHandler rh

/-- The field of `builder` a call is for, numbered in the order of the
constructors above. -/
def OptionCall.field : OptionCall → Nat
  | .WithMethod _ => 0
  | .WithScheme _ => 1
  | .WithHost _ => 2
  | .WithPath _ => 3
  | .WithHeaders _ => 4
  | .WithQueryArgs _ => 5
  | .WithBody _ => 6
  | .WithClient _ => 7
  | .WithResponseHandler _ => 8

/-- A call other than `WithPath()` without chunks. -/
def OptionCall.hasChunks : OptionCall → Prop
  | .WithPath chunks => chunks ≠ []
  | _ => True

def OptionCall.method? : OptionCall → Option Method
  | .WithMethod method => some method
  | _ => none

def OptionCall.scheme? : OptionCall → Option Scheme
  | .WithScheme scheme => some scheme
  | _ => none

def OptionCall.host? : OptionCall → Option String
  | .WithHost host => some host
  | _ => none

def OptionCall.path? (join : List String → String) : OptionCall → Option String
  | .WithPath chunks => some (join chunks)
  | _ => none

def OptionCall.headers? : OptionCall → Option (Option StringsMap)
  | .WithHeaders headers => some headers
  | _ => none

def OptionCall.queryArgs? : OptionCall → Option (Option StringsMap)
  | .WithQueryArgs queryArgs => some queryArgs
  | _ => none

def OptionCall.body? : OptionCall → Option String
  | .WithBody body => some body
  | _ => none

def OptionCall.client? : OptionCall → Option (Option Client)
  | .WithClient c => some c
  | _ => none

def OptionCall.responseHandler? : OptionCall → Option (Option ResponseHandler)
  | .WithResponseHandler rh => some rh
  | _ => none

/-- The value the last call that gives one gives (`value? call` is the value
a call gives, if it is for the field in question), and `start` when no call
gives one. -/
def lastValue {α : Type} (value? : OptionCall → Option α) (start : α) (calls : List OptionCall) :
    α :=
  ((calls.filterMap value?).getLast?).getD start

/-- The builder in which every field holds the value of the last call for
that field, and the value it has in `b` when no call is for it. -/
def lastOfEach (join : List String → String) (calls : List OptionCall) (b : builder) : builder :=
  { client := lastValue OptionCall.client? b.client calls
    req := b.req
    scheme := lastValue OptionCall.scheme? b.scheme calls
    method := lastValue OptionCall.method? b.method calls
    host := lastValue OptionCall.host? b.host calls
    path := lastValue (OptionCall.path? join) b.path calls
    headers := lastValue OptionCall.headers? b.headers calls
    queryArgs := lastValue OptionCall.queryArgs? b.queryArgs calls
    body := lastValue OptionCall.body? b.body calls
    responseHandler := lastValue OptionCall.responseHandler? b.responseHandler calls }

/-! ## Maps and handlers, read back -/

/-- The index expression `m[k]` on a `map[string][]string`: the values under
`k`, none when the key is absent. -/
def StringsMap.get (m : StringsMap) (k : String) : List String :=
  match m with
  | [] => []
  | (k0, vs) :: rest => if k0 = k then vs else StringsMap.get rest k

/-- A handler is a Go function of a pointer: it can change what the pointer
designates, not whether the pointer is nil. -/
def keepsPointer (handler : ResponseHandler) : Prop :=
  ∀ resp resp1 err, handler resp = .ret (resp1, err) → resp1.isSome = resp.isSome

/-! ## The test "happy path all options and target" -/

/-- The response handler of the test: it sets the status code to 69 and the
body to a fresh stream over `out`, and returns nil. -/
def testHandler (out : String) : ResponseHandler :=
  fun resp =>
    match resp with
    | none => .crash "nil pointer dereference"
    | some r => .ret (some { r with StatusCode := 69, Body := some (ReadCloser.fresh out) }, none)

/-- The options of the test, for a target marshalled to `out`. -/
def testOptions (std : Stdlib) (out : String) : List BuilderOption :=
  [WithScheme HTTPS, WithMethod Get, WithBody out, WithHost "strickland-propane.com",
    WithPath std.pathJoin ["dangit", "bobby"],
    WithClient (some (mockedClient 0 (.ok "null") none)),
    WithQueryArgs (some [("query", ["arg1", "arg2"])]),
    WithHeaders (some [("traceability", ["path1", "path2"])]),
    WithResponseHandler (some (testHandler out))]

/-! ## Auxiliary facts -/

theorem length_eq_zero_iff (s : String) : s.length = 0 ↔ s = "" := by
  cases s with
  | mk l =>
    constructor
    · intro h
      have hl : l = [] := List.length_eq_zero.mp h
      subst hl
      rfl
    · intro h
      rw [h]
      rfl

@[simp] theorem after_done {β : Type} (calls calls1 : List Call) (b : β) :
    Exec.after calls (Exec.done b calls1) = Exec.done b (calls ++ calls1) := rfl

@[simp] theorem after_crash {β : Type} (calls : List Call) (msg : String) :
    Exec.after calls (Exec.crash msg : Exec β) = Exec.crash msg := rfl

@[simp] theorem after_nil {β : Type} (x : Exec β) : Exec.after [] x = x := by
  cases x <;> rfl

theorem after_eq_done {β : Type} (calls : List Call) (x : Exec β) (out : β)
    (all : List Call) (h : Exec.after calls x = .done out all) :
    ∃ rest, x = .done out rest ∧ all = calls ++ rest := by
  cases x with
  | crash msg => simp at h
  | done b calls1 =>
    simp only [after_done, Exec.done.injEq] at h
    exact ⟨calls1, by rw [h.1], h.2.symm⟩

theorem bind_done {α β : Type} (a : α) (calls : List Call) (f : α → Exec β) :
    (Exec.done a calls >>= f) = Exec.after calls (f a) := rfl

theorem bind_crash {α β : Type} (msg : String) (f : α → Exec β) :
    (Exec.crash msg >>= f) = Exec.crash msg := rfl

theorem pure_eq_done {α : Type} (a : α) : (pure a : Exec α) = Exec.done a [] := rfl

/-! ## Construction -/

/-- The host check of `NewRequester`: when the options all return and leave
the host of the builder empty, the result is a nil requester with the
missing-host error, and the record of calls is empty. -/
theorem NewRequester_missing_host (std : Stdlib) (opts : List BuilderOption) (b : builder)
    (happly : applyOptions opts builder.zero = .ret b) (hhost : b.host = "") :
    NewRequester std opts =
      .done (none, some (.other ("missing host from request builder: " ++ std.sprintBuilder b)))
        [] := by
  have hlen : b.host.length = 0 := (length_eq_zero_iff b.host).mpr hhost
  simp [NewRequester, happly, Exec.ofResult, bind_done, hlen, pure_eq_done]

/-- C1 does not hold of the code: on a sequence without a host that contains
`WithPath()` without chunks, alone or among the options of the test "missing
host will cause error", `NewRequester` panics in its option loop with an index
out of range, before the host check, and so returns no error. On every
sequence whose options all return and leave the host empty, `NewRequester`
does return a nil requester with the missing-host error, having called
neither `http.NewRequest` nor a transport, as on the options of that test. -/
theorem C1_missing_host_panics_on_WithPath_without_chunks :
    (∀ (std : Stdlib) (join : List String → String),
      NewRequester std [WithPath join []] = .crash "index out of range [0] with length 0" ∧
      NewRequester std
          [WithClient (some (mockedClient 200 (.ok "null") none)), WithPath join [],
            WithHost ""] =
        .crash "index out of range [0] with length 0") ∧
    (∀ (std : Stdlib) (opts : List BuilderOption) (b : builder),
      applyOptions opts builder.zero = .ret b → b.host = "" →
      NewRequester std opts =
        .done
          (none, some (.other ("missing host from request builder: " ++ std.sprintBuilder b)))
          []) ∧
    (∀ std : Stdlib,
      NewRequester std [WithClient (some (mockedClient 200 (.ok "null") none))] =
        .done
          (none, some (.other ("missing host from request builder: " ++
            std.sprintBuilder
              { builder.zero with client := some (mockedClient 200 (.ok "null") none) })))
          []) :=
  ⟨fun _ _ => ⟨rfl, rfl⟩,
    fun std opts b happly hhost => NewRequester_missing_host std opts b happly hhost,
    fun std =>
      NewRequester_missing_host std [WithClient (some (mockedClient 200 (.ok "null") none))]
        { builder.zero with client := some (mockedClient 200 (.ok "null") none) } rfl rfl⟩

/-! ## The default response handler -/

theorem mem_accepted_iff (code : Int) :
    code ∈ [200, 201, 202, 203, 204, 205, 206, 207, 208, 226,
      300, 301, 302, 303, 304, 305, 307, 308] ↔
    code ∈ successCodes ∨ code ∈ redirectCodes := by
  simp only [successCodes, redirectCodes, List.mem_cons, List.mem_singleton, List.not_mem_nil,
    or_false]
  tauto

theorem defaultResponseHandler_success (r : Response) (h : r.StatusCode ∈ successCodes) :
    defaultResponseHandler (some r) = .ret (some r, none) := by
  simp [defaultResponseHandler, h]

theorem defaultResponseHandler_redirect (r : Response) (h : r.StatusCode ∈ redirectCodes) :
    defaultResponseHandler (some r) = .ret (some r, none) := by
  by_cases hs : r.StatusCode ∈ successCodes
  · exact defaultResponseHandler_success r hs
  · simp [defaultResponseHandler, h, hs]

theorem defaultResponseHandler_failure (r : Response) (body : ReadCloser)
    (hbody : r.Body = some body) (hs : r.StatusCode ∉ successCodes)
    (hr : r.StatusCode ∉ redirectCodes) :
    defaultResponseHandler (some r) =
      .ret (some { r with Body := some (ReadAll body).2.Close },
        some (NewResponseError r.StatusCode body.available)) := by
  simp [defaultResponseHandler, hs, hr, hbody, closeBody, ReadAll]

/-- C2: on a response with a body, `defaultResponseHandler` returns no error
exactly when the status code is one of the eighteen listed codes, and for
every other status code it returns a non-nil error. -/
theorem C2_default_handler_accepts_iff (r : Response) (body : ReadCloser)
    (hbody : r.Body = some body) :
    ((∃ r1, defaultResponseHandler (some r) = .ret (r1, none)) ↔
      r.StatusCode ∈ [200, 201, 202, 203, 204, 205, 206, 207, 208, 226,
        300, 301, 302, 303, 304, 305, 307, 308]) ∧
    (r.StatusCode ∉ [200, 201, 202, 203, 204, 205, 206, 207, 208, 226,
        300, 301, 302, 303, 304, 305, 307, 308] →
      ∃ r1 e, defaultResponseHandler (some r) = .ret (r1, some e)) := by
  rw [mem_accepted_iff]
  by_cases hs : r.StatusCode ∈ successCodes
  · exact ⟨⟨fun _ => Or.inl hs, fun _ => ⟨_, defaultResponseHandler_success r hs⟩⟩,
      fun h => absurd (Or.inl hs) h⟩
  · by_cases hr : r.StatusCode ∈ redirectCodes
    · exact ⟨⟨fun _ => Or.inr hr, fun _ => ⟨_, defaultResponseHandler_redirect r hr⟩⟩,
        fun h => absurd (Or.inr hr) h⟩
    · have hf := defaultResponseHandler_failure r body hbody hs hr
      refine ⟨⟨?_, fun h => absurd h (not_or.mpr ⟨hs, hr⟩)⟩, fun _ => ⟨_, _, hf⟩⟩
      rintro ⟨r1, h1⟩
      rw [hf] at h1
      cases h1

/-- Witness of C2 on the response of the mock transport with status 306. -/
theorem C2_default_handler_accepts_iff_witness :
    ((∃ r1, defaultResponseHandler
        (some { StatusCode := 306, Body := some (ReadCloser.fresh "null") }) = .ret (r1, none)) ↔
      (306 : Int) ∈ [200, 201, 202, 203, 204, 205, 206, 207, 208, 226,
        300, 301, 302, 303, 304, 305, 307, 308]) ∧
    ((306 : Int) ∉ [200, 201, 202, 203, 204, 205, 206, 207, 208, 226,
        300, 301, 302, 303, 304, 305, 307, 308] →
      ∃ r1 e, defaultResponseHandler
        (some { StatusCode := 306, Body := some (ReadCloser.fresh "null") }) =
          .ret (r1, some e)) :=
  C2_default_handler_accepts_iff { StatusCode := 306, Body := some (ReadCloser.fresh "null") }
    (ReadCloser.fresh "null") rfl

/-- C3: on a status code outside the success and redirect sets and an open
body, `defaultResponseHandler` returns the `NewResponseError` whose text is
"request failed: response not OK, status: ", the code in decimal, ", body: "
and all the unread content of the body; it leaves the body drained (no data),
closed, with one more read and one more close than before (the fields of a
`ReadCloser` are data, closed, reads, closes), and a further read of it yields
no data. -/
theorem C3_default_handler_failure (r : Response) (body : ReadCloser)
    (hbody : r.Body = some body) (hopen : body.closed = false)
    (hs : r.StatusCode ∉ successCodes) (hr : r.StatusCode ∉ redirectCodes) :
    defaultResponseHandler (some r) =
      .ret
        (some { r with
          Body := some ⟨"", true, body.reads + 1, body.closes + 1⟩ },
        some (NewResponseError r.StatusCode body.data)) ∧
    (NewResponseError r.StatusCode body.data).Error =
      "request failed: response not OK, status: " ++ toString r.StatusCode ++ ", body: " ++
        body.data ∧
    (ReadAll ⟨"", true, body.reads + 1, body.closes + 1⟩).1 = "" := by
  refine ⟨?_, ?_, ?_⟩
  · rw [defaultResponseHandler_failure r body hbody hs hr]
    simp [ReadAll, ReadCloser.Close, ReadCloser.available, hopen]
  · simp only [NewResponseError, GoError.Error, ResponseError.Error, String.append_assoc]
    rfl
  · simp [ReadAll, ReadCloser.available]

/-- Witness of C3 on the response of the mock transport of the test "sad path
default handler with unacceptable status code": status 420, body "null". -/
theorem C3_default_handler_failure_witness :
    defaultResponseHandler (some { StatusCode := 420, Body := some (ReadCloser.fresh "null") }) =
      .ret (some { StatusCode := 420, Body := some ⟨"", true, 1, 1⟩ },
        some (NewResponseError 420 "null")) ∧
    (NewResponseError 420 "null").Error =
      "request failed: response not OK, status: " ++ toString (420 : Int) ++ ", body: " ++
        "null" ∧
    (ReadAll ⟨"", true, 1, 1⟩).1 = "" :=
  C3_default_handler_failure { StatusCode := 420, Body := some (ReadCloser.fresh "null") }
    (ReadCloser.fresh "null") rfl rfl (by decide) (by decide)

/-! ## The engine, path by path -/

theorem Make_transport_error {τ : Type} (dec : Decoder τ) (b : builder) (req : Request)
    (client : Client) (ctx : Context) (target : Option τ) (resp : Option Response)
    (e : GoError) (hreq : b.req = some req) (hclient : b.client = some client)
    (hdo : client req = .ret (resp, some e)) :
    b.Make dec (some ctx) target =
      .done { resp := none, err := some e, target := target } [.Do req] := by
  simp [builder.Make, hreq, hclient, hdo, Request.WithContext, Exec.ofResult, Exec.deref,
    Exec.call, bind_done, pure_eq_done]

theorem Make_handler_error {τ : Type} (dec : Decoder τ) (b : builder) (req : Request)
    (client : Client) (handler : ResponseHandler) (ctx : Context) (target : Option τ)
    (resp resp1 : Option Response) (e : GoError)
    (hreq : b.req = some req) (hclient : b.client = some client)
    (hdo : client req = .ret (resp, none)) (hhandler : b.responseHandler = some handler)
    (hrun : handler resp = .ret (resp1, some e)) :
    b.Make dec (some ctx) target =
      .done { resp := resp1, err := some e, target := target }
        [.Do req, .responseHandler resp] := by
  simp [builder.Make, hreq, hclient, hdo, hhandler, hrun, Request.WithContext, Exec.ofResult,
    Exec.deref, Exec.call, bind_done, pure_eq_done]

theorem Make_no_target {τ : Type} (dec : Decoder τ) (b : builder) (req : Request)
    (client : Client) (handler : ResponseHandler) (ctx : Context)
    (resp resp1 : Option Response)
    (hreq : b.req = some req) (hclient : b.client = some client)
    (hdo : client req = .ret (resp, none)) (hhandler : b.responseHandler = some handler)
    (hrun : handler resp = .ret (resp1, none)) :
    b.Make dec (some ctx) (none : Option τ) =
      .done { resp := resp1, err := none, target := none }
        [.Do req, .responseHandler resp] := by
  simp [builder.Make, hreq, hclient, hdo, hhandler, hrun, Request.WithContext, Exec.ofResult,
    Exec.deref, Exec.call, bind_done, pure_eq_done]

theorem Make_decode {τ : Type} (dec : Decoder τ) (b : builder) (req : Request)
    (client : Client) (handler : ResponseHandler) (ctx : Context) (t : τ)
    (resp : Option Response) (r1 : Response) (body : ReadCloser)
    (hreq : b.req = some req) (hclient : b.client = some client)
    (hdo : client req = .ret (resp, none)) (hhandler : b.responseHandler = some handler)
    (hrun : handler resp = .ret (some r1, none)) (hbody : r1.Body = some body) :
    b.Make dec (some ctx) (some t) =
      .done
        { resp := some { r1 with Body := some (body.decode dec t).2.Close },
          err := (dec body.available t).err,
          target := some (dec body.available t).target }
        [.Do req, .responseHandler resp, .Decode body.available, .closeBody] := by
  simp [builder.Make, hreq, hclient, hdo, hhandler, hrun, hbody, Request.WithContext,
    Exec.ofResult, Exec.deref, Exec.call, bind_done, pure_eq_done, closeBody,
    ReadCloser.decode]

/-! ## The failure predicate -/

/-- C4 does not hold of the code: `IsResponseErr` is false on every error
`NewResponseError` builds, and so on the error `Make` returns for the
requester of the test "sad path default handler with unacceptable status
code" (default handler, transport answering 420). -/
theorem C4_IsResponseErr_false_on_NewResponseError :
    (∀ (code : Int) (body : String), IsResponseErr (some (NewResponseError code body)) = false) ∧
    (exampleRequester 420).Make decodeTarget (some .background) none =
      .done
        { resp := some { StatusCode := 420, Body := some ⟨"", true, 1, 1⟩ },
          err := some (NewResponseError 420 "null"),
          target := none }
        [.Do exampleRequest,
          .responseHandler (some { StatusCode := 420, Body := some (ReadCloser.fresh "null") })] ∧
    IsResponseErr (some (NewResponseError 420 "null")) = false :=
  ⟨fun _ _ => rfl,
    Make_handler_error decodeTarget (exampleRequester 420) exampleRequest
      (mockedClient 420 (.ok "null") none) defaultResponseHandler .background none
      (some { StatusCode := 420, Body := some (ReadCloser.fresh "null") })
      (some { StatusCode := 420, Body := some ⟨"", true, 1, 1⟩ })
      (NewResponseError 420 "null") rfl rfl rfl rfl rfl,
    rfl⟩

/-! ## The engine, outcome by outcome -/

/-- C5: when `Do` returns a non-nil error, `Make` returns a nil response with
exactly that error and the target as it was, and the only call it has made is
`Do`: the handler is not invoked, nothing is decoded and no body is closed,
whatever response `Do` returned beside the error. -/
theorem C5_transport_error_returned_as_is {τ : Type} (dec : Decoder τ) (b : builder)
    (req : Request) (client : Client) (ctx : Context) (target : Option τ)
    (resp : Option Response) (e : GoError)
    (hreq : b.req = some req) (hclient : b.client = some client)
    (hdo : client req = .ret (resp, some e)) :
    b.Make dec (some ctx) target =
      .done { resp := none, err := some e, target := target } [.Do req] :=
  Make_transport_error dec b req client ctx target resp e hreq hclient hdo

/-- Witness of C5: the mock transport returns a response with status 200
together with an error. -/
theorem C5_transport_error_returned_as_is_witness :
    ({ exampleRequester 200 with
        client := some (mockedClient 200 (.ok "null") (some (.other "timeout"))) } : builder).Make
        decodeTarget (some .todo) (some { SomeValue := "kept" }) =
      .done { resp := none, err := some (.other "timeout"),
              target := some { SomeValue := "kept" } }
        [.Do exampleRequest] :=
  C5_transport_error_returned_as_is decodeTarget
    { exampleRequester 200 with
      client := some (mockedClient 200 (.ok "null") (some (.other "timeout"))) }
    exampleRequest (mockedClient 200 (.ok "null") (some (.other "timeout"))) .todo
    (some { SomeValue := "kept" })
    (some { StatusCode := 200, Body := some (ReadCloser.fresh "null") }) (.other "timeout")
    rfl rfl rfl

/-- C6: when the transport succeeds and the handler returns a non-nil error,
`Make` returns the response in the state the handler left it, with exactly
that error and the target as it was; its calls are `Do` and the handler, with
no decoding and no `closeBody`. -/
theorem C6_handler_error_returned_with_response {τ : Type} (dec : Decoder τ) (b : builder)
    (req : Request) (client : Client) (handler : ResponseHandler) (ctx : Context)
    (target : Option τ) (resp resp1 : Option Response) (e : GoError)
    (hreq : b.req = some req) (hclient : b.client = some client)
    (hdo : client req = .ret (resp, none)) (hhandler : b.responseHandler = some handler)
    (hrun : handler resp = .ret (resp1, some e)) :
    b.Make dec (some ctx) target =
      .done { resp := resp1, err := some e, target := target }
        [.Do req, .responseHandler resp] :=
  Make_handler_error dec b req client handler ctx target resp resp1 e hreq hclient hdo
    hhandler hrun

/-- Witness of C6: the sad path of the tests, status 420 under the default
handler, here with a target. -/
theorem C6_handler_error_returned_with_response_witness :
    (exampleRequester 420).Make decodeTarget (some .background)
        (some { SomeValue := "kept" }) =
      .done
        { resp := some { StatusCode := 420, Body := some ⟨"", true, 1, 1⟩ },
          err := some (NewResponseError 420 "null"),
          target := some { SomeValue := "kept" } }
        [.Do exampleRequest,
          .responseHandler (some { StatusCode := 420, Body := some (ReadCloser.fresh "null") })] :=
  C6_handler_error_returned_with_response decodeTarget (exampleRequester 420) exampleRequest
    (mockedClient 420 (.ok "null") none) defaultResponseHandler .background
    (some { SomeValue := "kept" })
    (some { StatusCode := 420, Body := some (ReadCloser.fresh "null") })
    (some { StatusCode := 420, Body := some ⟨"", true, 1, 1⟩ })
    (NewResponseError 420 "null") rfl rfl rfl rfl rfl

/-- C7: when the transport succeeds and the handler reports no error, `Make`
with a nil target returns the response in the state the handler left it, with
a nil error, after the calls `Do` and the handler only: no read and no close
of its own. With the default handler and a status in the success set that
state is the very state the transport returned, body included. -/
theorem C7_no_target_leaves_body {τ : Type} (dec : Decoder τ) (b : builder)
    (req : Request) (client : Client) (handler : ResponseHandler) (ctx : Context)
    (resp resp1 : Option Response)
    (hreq : b.req = some req) (hclient : b.client = some client)
    (hdo : client req = .ret (resp, none)) (hhandler : b.responseHandler = some handler)
    (hrun : handler resp = .ret (resp1, none)) :
    b.Make dec (some ctx) (none : Option τ) =
      .done { resp := resp1, err := none, target := none }
        [.Do req, .responseHandler resp] ∧
    (∀ r : Response, handler = defaultResponseHandler → resp = some r →
      r.StatusCode ∈ [200, 201, 202, 203, 204, 205, 206, 207, 208, 226] → resp1 = some r) := by
  refine ⟨Make_no_target dec b req client handler ctx resp resp1 hreq hclient hdo hhandler hrun,
    ?_⟩
  intro r hdefault hresp hcode
  rw [hdefault, hresp, defaultResponseHandler_success r hcode] at hrun
  cases hrun
  rfl

/-- Witness of C7: the test "happy path defaults". -/
theorem C7_no_target_leaves_body_witness :
    (exampleRequester 200).Make decodeTarget (some .background) none =
      .done
        { resp := some { StatusCode := 200, Body := some (ReadCloser.fresh "null") },
          err := none, target := none }
        [.Do exampleRequest,
          .responseHandler (some { StatusCode := 200, Body := some (ReadCloser.fresh "null") })] ∧
    (∀ r : Response, defaultResponseHandler = defaultResponseHandler →
      some { StatusCode := 200, Body := some (ReadCloser.fresh "null") } = some r →
      r.StatusCode ∈ [200, 201, 202, 203, 204, 205, 206, 207, 208, 226] →
      some { StatusCode := 200, Body := some (ReadCloser.fresh "null") } = some r) :=
  C7_no_target_leaves_body decodeTarget (exampleRequester 200) exampleRequest
    (mockedClient 200 (.ok "null") none) defaultResponseHandler .background
    (some { StatusCode := 200, Body := some (ReadCloser.fresh "null") })
    (some { StatusCode := 200, Body := some (ReadCloser.fresh "null") })
    rfl rfl rfl rfl rfl

/-! ## Requesters built by `NewRequester` -/

theorem addQueryArgs_ctx (std : Stdlib) (r : Request) (args : StringsMap) :
    (addQueryArgs std r args).ctx = r.ctx := rfl

theorem addHeaders_ctx (std : Stdlib) (r : Request) (headers : StringsMap) :
    (addHeaders std r headers).ctx = r.ctx := rfl

theorem NewRequest_ctx (std : Stdlib) (method url body : String) (req : Request)
    (h : NewRequest std method url body = .ok req) : req.ctx = .background := by
  unfold NewRequest at h
  simp only at h
  by_cases hv : validMethod (if method = "" then "GET" else method) = false
  · rw [if_pos hv] at h
    cases h
  · rw [if_neg hv] at h
    cases hp : std.urlParse url with
    | error err =>
      rw [hp] at h
      cases h
    | ok u =>
      rw [hp] at h
      cases h
      rfl

/-- The request `NewRequester` installs, from the one `http.NewRequest` made. -/
theorem NewRequester_of_applied (std : Stdlib) (opts : List BuilderOption) (b : builder)
    (happly : applyOptions opts builder.zero = .ret b) (hhost : b.host ≠ "") :
    NewRequester std opts =
      match NewRequest std (if b.method.length = 0 then defaultMethod else b.method)
          (std.urlString (formatURL (if b.scheme.length = 0 then defaultScheme else b.scheme)
            b.host b.path)) b.body with
      | .error err =>
        .done (none, some err)
          [.NewRequest (if b.method.length = 0 then defaultMethod else b.method)
            (std.urlString (formatURL (if b.scheme.length = 0 then defaultScheme else b.scheme)
              b.host b.path)) b.body]
      | .ok req =>
        .done
          (some
            { b with
              scheme := if b.scheme.length = 0 then defaultScheme else b.scheme
              method := if b.method.length = 0 then defaultMethod else b.method
              client := if b.client.isNone then some std.defaultClient else b.client
              responseHandler :=
                if b.responseHandler.isNone then some defaultResponseHandler
                else b.responseHandler
              req := some
                (match b.headers with
                  | some headers =>
                    addHeaders std
                      (match b.queryArgs with
                        | some args => addQueryArgs std req args
                        | none => req) headers
                  | none =>
                    match b.queryArgs with
                    | some args => addQueryArgs std req args
                    | none => req) },
            none)
          [.NewRequest (if b.method.length = 0 then defaultMethod else b.method)
            (std.urlString (formatURL (if b.scheme.length = 0 then defaultScheme else b.scheme)
              b.host b.path)) b.body] := by
  have hlen : ¬ b.host.length = 0 := fun h => hhost ((length_eq_zero_iff b.host).mp h)
  unfold NewRequester
  simp only [happly, Exec.ofResult, bind_done, Exec.call, hlen, if_false, List.nil_append]
  cases NewRequest std (if b.method.length = 0 then defaultMethod else b.method)
      (std.urlString (formatURL (if b.scheme.length = 0 then defaultScheme else b.scheme)
        b.host b.path)) b.body with
  | error err => rfl
  | ok req => rfl

theorem validMethod_ne_empty (method : String) (h : validMethod method = true) :
    method ≠ "" := by
  intro he
  subst he
  simp [validMethod] at h

theorem NewRequest_ok (std : Stdlib) (method url body : String) (u : URL)
    (hmethod : validMethod method = true) (hurl : std.urlParse url = .ok u) :
    NewRequest std method url body =
      .ok { ctx := .background, Method := method,
            URL := { u with Host := std.removeEmptyPort u.Host },
            Header := [], Body := body, Host := std.removeEmptyPort u.Host } := by
  have hne := validMethod_ne_empty method hmethod
  simp [NewRequest, hne, hmethod, hurl]

theorem NewRequester_fields (std : Stdlib) (opts : List BuilderOption) (r : builder)
    (calls : List Call) (h : NewRequester std opts = .done (some r, none) calls) :
    ∃ req, r.req = some req ∧ req.ctx = .background ∧ r.client.isSome = true ∧
      r.responseHandler.isSome = true := by
  cases happly : applyOptions opts builder.zero with
  | crash msg => simp [NewRequester, happly, Exec.ofResult, bind_crash] at h
  | ret b =>
    by_cases hhost : b.host = ""
    · have hlen : b.host.length = 0 := (length_eq_zero_iff b.host).mpr hhost
      simp [NewRequester, happly, Exec.ofResult, bind_done, hlen, pure_eq_done] at h
    · rw [NewRequester_of_applied std opts b happly hhost] at h
      generalize hm : NewRequest std _ _ _ = made at h
      cases made with
      | error err => simp at h
      | ok req0 =>
        have hctx := NewRequest_ctx std _ _ _ req0 hm
        simp only [Exec.done.injEq, Prod.mk.injEq, Option.some.injEq, and_true] at h
        obtain ⟨hr, -⟩ := h
        subst hr
        refine ⟨_, rfl, ?_, ?_, ?_⟩
        · cases b.queryArgs <;> cases b.headers <;>
            simp [addQueryArgs_ctx, addHeaders_ctx, hctx]
        · cases hc : b.client <;> simp
        · cases hh : b.responseHandler <;> simp

theorem Make_first_call {τ : Type} (dec : Decoder τ) (b : builder) (req : Request)
    (client : Client) (ctx : Context) (target : Option τ) (out : MakeResult τ)
    (calls : List Call) (hreq : b.req = some req) (hclient : b.client = some client)
    (h : b.Make dec (some ctx) target = .done out calls) :
    calls.head? = some (.Do req) := by
  unfold builder.Make at h
  simp only [hreq, hclient, Request.WithContext, Exec.ofResult, Exec.deref, bind_done,
    after_nil] at h
  cases hdo : client req with
  | crash msg => simp [hdo, Exec.call, bind_crash] at h
  | ret p =>
    simp only [hdo, Exec.call, bind_done] at h
    obtain ⟨rest, -, hall⟩ := after_eq_done _ _ _ _ h
    rw [hall]
    rfl

/-- C8: when the transport succeeds and the handler reports no error, `Make`
with a present target runs the decoder on the bytes the body can still give
and on the target, closes the body once afterwards whatever the decoder
returned (one `closeBody` call, one more close on the body), and returns the
response with exactly the decoder's error and the target as the decoder left
it. -/
theorem C8_target_decoded_body_closed {τ : Type} (dec : Decoder τ) (b : builder)
    (req : Request) (client : Client) (handler : ResponseHandler) (ctx : Context) (t : τ)
    (resp : Option Response) (r1 : Response) (body : ReadCloser)
    (hreq : b.req = some req) (hclient : b.client = some client)
    (hdo : client req = .ret (resp, none)) (hhandler : b.responseHandler = some handler)
    (hrun : handler resp = .ret (some r1, none)) (hbody : r1.Body = some body) :
    b.Make dec (some ctx) (some t) =
      .done
        { resp := some
            { r1 with
              Body := some
                ⟨if body.closed then body.data else (dec body.available t).rest, true,
                  body.reads + 1, body.closes + 1⟩ },
          err := (dec body.available t).err,
          target := some (dec body.available t).target }
        [.Do req, .responseHandler resp, .Decode body.available, .closeBody] :=
  Make_decode dec b req client handler ctx t resp r1 body hreq hclient hdo hhandler hrun hbody

/-- Witness of C8: a transport answering 200 with the body
`marshalTarget` of the value "v", the default handler, and a target whose
field is empty before the call and "v" after it. -/
theorem C8_target_decoded_body_closed_witness :
    ({ exampleRequester 200 with
        client := some (mockedClient 200 (.ok (marshalTarget { SomeValue := "v" })) none) } :
        builder).Make decodeTarget (some .background) (some { SomeValue := "" }) =
      .done
        { resp := some { StatusCode := 200, Body := some ⟨"", true, 1, 1⟩ },
          err := none,
          target := some { SomeValue := "v" } }
        [.Do exampleRequest,
          .responseHandler
            (some { StatusCode := 200,
                    Body := some (ReadCloser.fresh (marshalTarget { SomeValue := "v" })) }),
          .Decode (marshalTarget { SomeValue := "v" }), .closeBody] :=
  C8_target_decoded_body_closed decodeTarget
    { exampleRequester 200 with
      client := some (mockedClient 200 (.ok (marshalTarget { SomeValue := "v" })) none) }
    exampleRequest (mockedClient 200 (.ok (marshalTarget { SomeValue := "v" })) none)
    defaultResponseHandler .background { SomeValue := "" }
    (some { StatusCode := 200,
            Body := some (ReadCloser.fresh (marshalTarget { SomeValue := "v" })) })
    { StatusCode := 200, Body := some (ReadCloser.fresh (marshalTarget { SomeValue := "v" })) }
    (ReadCloser.fresh (marshalTarget { SomeValue := "v" })) rfl rfl rfl rfl rfl rfl

/-- C9 does not hold of the code: called with a context derived from the
background context, `Make` hands `Do` the request stored in the builder,
whose context is still the background context. In general the first call of
`Make` is `Do` on the stored request, whatever context is given, and the
request stored by `NewRequester` always carries the background context. -/
theorem C9_Do_receives_creation_context :
    (exampleRequester 200).Make decodeTarget (some (.derived .background 1)) none =
      .done
        { resp := some { StatusCode := 200, Body := some (ReadCloser.fresh "null") },
          err := none, target := none }
        [.Do exampleRequest,
          .responseHandler (some { StatusCode := 200, Body := some (ReadCloser.fresh "null") })] ∧
    exampleRequest.ctx = .background ∧
    exampleRequest.ctx ≠ .derived .background 1 ∧
    (∀ (τ : Type) (dec : Decoder τ) (b : builder) (req : Request) (client : Client)
        (ctx : Context) (t : Option τ) (out : MakeResult τ) (calls : List Call),
      b.req = some req → b.client = some client →
      b.Make dec (some ctx) t = .done out calls →
      calls.head? = some (.Do req)) ∧
    (∀ (std : Stdlib) (opts : List BuilderOption) (r : builder) (calls : List Call),
      NewRequester std opts = .done (some r, none) calls →
      ∃ req, r.req = some req ∧ req.ctx = .background) :=
  ⟨Make_no_target decodeTarget (exampleRequester 200) exampleRequest
      (mockedClient 200 (.ok "null") none) defaultResponseHandler (.derived .background 1)
      (some { StatusCode := 200, Body := some (ReadCloser.fresh "null") })
      (some { StatusCode := 200, Body := some (ReadCloser.fresh "null") }) rfl rfl rfl rfl rfl,
    rfl, by decide,
    fun _ dec b req client ctx t out calls hreq hclient h =>
      Make_first_call dec b req client ctx t out calls hreq hclient h,
    fun std opts r calls h =>
      (NewRequester_fields std opts r calls h).imp fun _ hreq => ⟨hreq.1, hreq.2.1⟩⟩

/-! ## Construction with a host -/

/-- C10 as stated fails: with a method that is not an HTTP token
and a non-empty host, `http.NewRequest` refuses the method and `NewRequester`
returns a nil requester with that error, under every standard library. -/
theorem C10_invalid_method_counterexample :
    (fun std : Stdlib =>
      NewRequester std [WithMethod "G T", WithHost "strickland-propane.com"]) =
    (fun std : Stdlib =>
      .done (none, some (.other ("net/http: invalid method " ++ std.quote "G T")))
        [.NewRequest "G T" (std.urlString (formatURL "http" "strickland-propane.com" "")) ""]) :=
  funext fun std => by
    rw [NewRequester_of_applied std [WithMethod "G T", WithHost "strickland-propane.com"]
      { builder.zero with method := "G T", host := "strickland-propane.com" } rfl (by decide)]
    rfl

/-- C10 as amended: when applying the options completes and leaves a
non-empty host, the method (GET when none is set) is an HTTP token and
`url.Parse` accepts the text of the URL, `NewRequester` returns a non-nil
requester and a nil error, after the one call to `http.NewRequest`. -/
theorem C10_NewRequester_succeeds (std : Stdlib) (opts : List BuilderOption) (b : builder)
    (u : URL) (happly : applyOptions opts builder.zero = .ret b) (hhost : b.host ≠ "")
    (hmethod : validMethod (if b.method.length = 0 then defaultMethod else b.method) = true)
    (hurl : std.urlParse
      (std.urlString (formatURL (if b.scheme.length = 0 then defaultScheme else b.scheme)
        b.host b.path)) = .ok u) :
    ∃ r, NewRequester std opts =
      .done (some r, none)
        [.NewRequest (if b.method.length = 0 then defaultMethod else b.method)
          (std.urlString (formatURL (if b.scheme.length = 0 then defaultScheme else b.scheme)
            b.host b.path)) b.body] := by
  rw [NewRequester_of_applied std opts b happly hhost,
    NewRequest_ok std _ _ b.body u hmethod hurl]
  exact ⟨_, rfl⟩

/-- Witness of C10 as amended: the options of the test "happy path all
options and target", without its handler. -/
theorem C10_NewRequester_succeeds_witness :
    ∃ r, NewRequester exampleStd
        [WithScheme HTTPS, WithMethod Get, WithBody (marshalTarget { SomeValue := "v" }),
          WithHost "strickland-propane.com", WithPath exampleStd.pathJoin ["dangit", "bobby"],
          WithClient (some (mockedClient 0 (.ok "null") none)),
          WithQueryArgs (some [("query", ["arg1", "arg2"])]),
          WithHeaders (some [("traceability", ["path1", "path2"])])] =
      .done (some r, none)
        [.NewRequest "GET" "https://strickland-propane.com/dangit/bobby"
          (marshalTarget { SomeValue := "v" })] :=
  C10_NewRequester_succeeds exampleStd
    [WithScheme HTTPS, WithMethod Get, WithBody (marshalTarget { SomeValue := "v" }),
      WithHost "strickland-propane.com", WithPath exampleStd.pathJoin ["dangit", "bobby"],
      WithClient (some (mockedClient 0 (.ok "null") none)),
      WithQueryArgs (some [("query", ["arg1", "arg2"])]),
      WithHeaders (some [("traceability", ["path1", "path2"])])]
    { builder.zero with
      scheme := HTTPS, method := Get, body := marshalTarget { SomeValue := "v" },
      host := "strickland-propane.com", path := "dangit/bobby",
      client := some (mockedClient 0 (.ok "null") none),
      queryArgs := some [("query", ["arg1", "arg2"])],
      headers := some [("traceability", ["path1", "path2"])] }
    { Scheme := "https", Host := "strickland-propane.com", Path := "/dangit/bobby",
      RawQuery := "" }
    rfl (by decide) (by decide) rfl

/-! ## Options as calls -/

theorem applyOptions_append (xs ys : List BuilderOption) (b : builder) :
    applyOptions (xs ++ ys) b =
      match applyOptions xs b with
      | .ret b1 => applyOptions ys b1
      | .crash msg => .crash msg := by
  induction xs generalizing b with
  | nil => rfl
  | cons o rest ih =>
    simp only [List.cons_append, applyOptions]
    cases o b with
    | ret b1 => exact ih b1
    | crash msg => rfl

theorem getLast?_cons_getD {α : Type} (a d : α) (l : List α) :
    ((a :: l).getLast?).getD d = (l.getLast?).getD a := by
  cases l with
  | nil => rfl
  | cons x rest =>
    rw [List.getLast?_cons_cons]
    cases h : (x :: rest).getLast? with
    | none => simp at h
    | some y => rfl

theorem lastValue_nil {α : Type} (f : OptionCall → Option α) (d : α) :
    lastValue f d [] = d := rfl

theorem lastValue_cons {α : Type} (f : OptionCall → Option α) (d : α) (c : OptionCall)
    (calls : List OptionCall) :
    lastValue f d (c :: calls) = lastValue f ((f c).getD d) calls := by
  unfold lastValue
  cases h : f c with
  | none => simp [List.filterMap_cons, h]
  | some a =>
    simp only [List.filterMap_cons, h, Option.getD_some]
    exact getLast?_cons_getD a d _

theorem option_of_hasChunks (join : List String → String) (c : OptionCall) (b : builder)
    (h : c.hasChunks) : c.option join b = .ret (lastOfEach join [c] b) := by
  cases c with
  | WithPath chunks =>
    have hlen : chunks.length > 0 := List.length_pos.mpr h
    simp [OptionCall.option, WithPath, hlen, lastOfEach, lastValue, OptionCall.path?,
      OptionCall.client?, OptionCall.scheme?, OptionCall.method?, OptionCall.host?,
      OptionCall.headers?, OptionCall.queryArgs?, OptionCall.body?,
      OptionCall.responseHandler?]
  | _ => rfl

theorem option_without_chunks (join : List String → String) (b : builder) :
    (OptionCall.WithPath []).option join b = .crash "index out of range [0] with length 0" :=
  rfl

theorem lastOfEach_cons (join : List String → String) (c : OptionCall)
    (calls : List OptionCall) (b : builder) :
    lastOfEach join (c :: calls) b = lastOfEach join calls (lastOfEach join [c] b) := by
  simp only [lastOfEach, lastValue_cons, lastValue_nil]

theorem applyOptions_calls (join : List String → String) (calls : List OptionCall)
    (b : builder) (h : ∀ c ∈ calls, c.hasChunks) :
    applyOptions (calls.map (OptionCall.option join)) b = .ret (lastOfEach join calls b) := by
  induction calls generalizing b with
  | nil => rfl
  | cons c rest ih =>
    simp only [List.map_cons, applyOptions,
      option_of_hasChunks join c b (h c (List.mem_cons_self c rest))]
    rw [ih _ (fun x hx => h x (List.mem_cons_of_mem c hx)), lastOfEach_cons join c rest b]

theorem applyOptions_calls_ret (join : List String → String) (calls : List OptionCall)
    (b b1 : builder) (h : applyOptions (calls.map (OptionCall.option join)) b = .ret b1) :
    (∀ c ∈ calls, c.hasChunks) ∧ b1 = lastOfEach join calls b := by
  induction calls generalizing b with
  | nil =>
    simp only [List.map_nil, applyOptions, Result.ret.injEq] at h
    exact ⟨fun c hc => absurd hc (List.not_mem_nil c), h.symm⟩
  | cons c rest ih =>
    have hc : c.hasChunks := by
      cases c with
      | WithPath chunks =>
        cases chunks with
        | nil => simp [applyOptions, option_without_chunks] at h
        | cons x xs => exact List.cons_ne_nil x xs
      | _ => trivial
    simp only [List.map_cons, applyOptions, option_of_hasChunks join c b hc] at h
    obtain ⟨hrest, hb1⟩ := ih _ h
    refine ⟨fun x hx => ?_, ?_⟩
    · rcases List.mem_cons.mp hx with rfl | hx
      · exact hc
      · exact hrest x hx
    · rw [hb1, lastOfEach_cons join c rest b]

theorem NewRequester_success (std : Stdlib) (opts : List BuilderOption) (b r : builder)
    (cs : List Call) (happly : applyOptions opts builder.zero = .ret b)
    (h : NewRequester std opts = .done (some r, none) cs) :
    b.host ≠ "" ∧
    ∃ req0,
      NewRequest std (if b.method.length = 0 then defaultMethod else b.method)
        (std.urlString (formatURL (if b.scheme.length = 0 then defaultScheme else b.scheme)
          b.host b.path)) b.body = .ok req0 ∧
      r =
        { b with
          scheme := if b.scheme.length = 0 then defaultScheme else b.scheme
          method := if b.method.length = 0 then defaultMethod else b.method
          client := if b.client.isNone then some std.defaultClient else b.client
          responseHandler :=
            if b.responseHandler.isNone then some defaultResponseHandler
            else b.responseHandler
          req := some
            (match b.headers with
              | some headers =>
                addHeaders std
                  (match b.queryArgs with
                    | some args => addQueryArgs std req0 args
                    | none => req0) headers
              | none =>
                match b.queryArgs with
                | some args => addQueryArgs std req0 args
                | none => req0) } ∧
      cs =
        [.NewRequest (if b.method.length = 0 then defaultMethod else b.method)
          (std.urlString (formatURL (if b.scheme.length = 0 then defaultScheme else b.scheme)
            b.host b.path)) b.body] := by
  by_cases hhost : b.host = ""
  · have hlen : b.host.length = 0 := (length_eq_zero_iff b.host).mpr hhost
    simp [NewRequester, happly, Exec.ofResult, bind_done, hlen, pure_eq_done] at h
  · refine ⟨hhost, ?_⟩
    rw [NewRequester_of_applied std opts b happly hhost] at h
    generalize hm : NewRequest std _ _ _ = made at h
    cases made with
    | error err => simp at h
    | ok req0 =>
      simp only [Exec.done.injEq, Prod.mk.injEq, Option.some.injEq, and_true] at h
      exact ⟨req0, rfl, h.1.symm, h.2.symm⟩

theorem NewRequest_Method (std : Stdlib) (method url body : String) (req : Request)
    (hne : method ≠ "") (h : NewRequest std method url body = .ok req) :
    req.Method = method := by
  unfold NewRequest at h
  simp only [hne, if_false] at h
  by_cases hv : validMethod method = false
  · rw [if_pos hv] at h
    cases h
  · rw [if_neg hv] at h
    cases hp : std.urlParse url with
    | error err =>
      rw [hp] at h
      cases h
    | ok u =>
      rw [hp] at h
      cases h
      rfl

theorem addQueryArgs_Method (std : Stdlib) (r : Request) (args : StringsMap) :
    (addQueryArgs std r args).Method = r.Method := rfl

theorem addHeaders_Method (std : Stdlib) (r : Request) (headers : StringsMap) :
    (addHeaders std r headers).Method = r.Method := rfl

theorem WithPath_cons (join : List String → String) (c : String) (cs : List String)
    (b : builder) : WithPath join (c :: cs) b = .ret { b with path := join (c :: cs) } := by
  simp [WithPath]

/-! ## The zero-chunk path -/

/-- C17: the option of `WithPath()` without chunks panics with an index out
of range on any builder instead of setting an empty path, so
`NewRequester(WithHost(h), WithPath())` panics: it returns neither a requester
nor an error. With at least one chunk the option returns, with the path set
to the joined chunks. -/
theorem C17_WithPath_without_chunks_panics (std : Stdlib) (join : List String → String)
    (b : builder) (h : String) :
    WithPath join [] b = .crash "index out of range [0] with length 0" ∧
    NewRequester std [WithHost h, WithPath join []] =
      .crash "index out of range [0] with length 0" ∧
    (∀ (c : String) (cs : List String),
      WithPath join (c :: cs) b = .ret { b with path := join (c :: cs) }) :=
  ⟨rfl, rfl, fun c cs => WithPath_cons join c cs b⟩

/-! ## Options: frame, order, last call -/

/-- C19: each option constructor returns the builder with its own field set
and every other field as it was (`WithPath` with at least one chunk); two
calls for different fields give the same builder in either order; and after
any sequence of calls, each with chunks, every field holds the value of the
last call for that field, or its former value when no call is for it. -/
theorem C19_options_frame_and_commute (join : List String → String) (b : builder) :
    ((∀ method, WithMethod method b = .ret { b with method := method }) ∧
      (∀ scheme, WithScheme scheme b = .ret { b with scheme := scheme }) ∧
      (∀ host, WithHost host b = .ret { b with host := host }) ∧
      (∀ c cs, WithPath join (c :: cs) b = .ret { b with path := join (c :: cs) }) ∧
      (∀ headers, WithHeaders headers b = .ret { b with headers := headers }) ∧
      (∀ queryArgs, WithQueryArgs queryArgs b = .ret { b with queryArgs := queryArgs }) ∧
      (∀ body, WithBody body b = .ret { b with body := body }) ∧
      (∀ c, WithClient c b = .ret { b with client := c }) ∧
      (∀ rh, WithResponseHandler rh b = .ret { b with responseHandler := rh })) ∧
    (∀ c1 c2 : OptionCall, c1.field ≠ c2.field → c1.hasChunks → c2.hasChunks →
      applyOptions [c1.option join, c2.option join] b =
        applyOptions [c2.option join, c1.option join] b) ∧
    (∀ calls : List OptionCall, (∀ c ∈ calls, c.hasChunks) →
      applyOptions (calls.map (OptionCall.option join)) b = .ret (lastOfEach join calls b)) := by
  refine ⟨⟨fun _ => rfl, fun _ => rfl, fun _ => rfl, fun c cs => WithPath_cons join c cs b,
    fun _ => rfl, fun _ => rfl,
    fun _ => rfl, fun _ => rfl, fun _ => rfl⟩, ?_, fun calls h => applyOptions_calls join calls b h⟩
  intro c1 c2 hfield h1 h2
  have e1 := applyOptions_calls join [c1, c2] b (by
    intro c hc
    rcases List.mem_cons.mp hc with rfl | hc
    · exact h1
    · rcases List.mem_cons.mp hc with rfl | hc
      · exact h2
      · exact absurd hc (List.not_mem_nil c))
  have e2 := applyOptions_calls join [c2, c1] b (by
    intro c hc
    rcases List.mem_cons.mp hc with rfl | hc
    · exact h2
    · rcases List.mem_cons.mp hc with rfl | hc
      · exact h1
      · exact absurd hc (List.not_mem_nil c))
  simp only [List.map_cons, List.map_nil] at e1 e2
  rw [e1, e2]
  cases c1 <;> cases c2 <;> first | exact absurd rfl hfield | rfl

/-- Witness of C19 on the builder of the test "happy path defaults": a host
and a path commute, and a sequence with two methods keeps the last. -/
theorem C19_options_frame_and_commute_witness :
    applyOptions [WithHost "strickland-propane.com", WithPath path.Join ["dangit", "bobby"]]
        (exampleRequester 200) =
      applyOptions [WithPath path.Join ["dangit", "bobby"], WithHost "strickland-propane.com"]
        (exampleRequester 200) ∧
    applyOptions
        ([OptionCall.WithMethod Post, .WithPath ["dangit"], .WithMethod Put].map
          (OptionCall.option path.Join)) (exampleRequester 200) =
      .ret { exampleRequester 200 with method := Put, path := "dangit" } :=
  ⟨(C19_options_frame_and_commute path.Join (exampleRequester 200)).2.1
      (.WithHost "strickland-propane.com") (.WithPath ["dangit", "bobby"]) (by decide)
      trivial (List.cons_ne_nil _ _),
    (C19_options_frame_and_commute path.Join (exampleRequester 200)).2.2
      [.WithMethod Post, .WithPath ["dangit"], .WithMethod Put]
      (by
        intro c hc
        simp only [List.mem_cons, List.mem_singleton, List.not_mem_nil, or_false] at hc
        rcases hc with rfl | rfl | rfl
        · trivial
        · exact List.cons_ne_nil _ _
        · trivial)⟩

theorem ite_length_eq (s a : String) :
    (if s.length = 0 then a else s) = (if s = "" then a else s) := by
  by_cases h : s = ""
  · simp [h]
  · have hl : ¬ s.length = 0 := fun hl => h ((length_eq_zero_iff s).mp hl)
    simp [h, hl]

theorem ite_length_ne_empty (s a : String) (ha : a ≠ "") :
    (if s.length = 0 then a else s) ≠ "" := by
  by_cases h : s = ""
  · simp [h, ha]
  · have hl : ¬ s.length = 0 := fun hl => h ((length_eq_zero_iff s).mp hl)
    simp [h, hl]

/-- C12: `NewRequester` runs its options from first to last on the zero
builder (the run over a list extended by one option is the run over the
list followed by that option, and `NewRequester` depends on the options only
through that run); after calls of the constructors every field holds the
value of the last call for it; and `WithHeaders(h1)` followed by
`WithHeaders(h2)` leaves exactly `h2` as headers, likewise for query
arguments. -/
theorem C12_options_in_order_last_wins (std : Stdlib) (join : List String → String) :
    (∀ b, applyOptions [] b = .ret b) ∧
    (∀ (opts : List BuilderOption) (o : BuilderOption) (b : builder),
      applyOptions (opts ++ [o]) b =
        match applyOptions opts b with
        | .ret b1 => o b1
        | .crash msg => .crash msg) ∧
    (∀ opts1 opts2 : List BuilderOption,
      applyOptions opts1 builder.zero = applyOptions opts2 builder.zero →
      NewRequester std opts1 = NewRequester std opts2) ∧
    (∀ calls : List OptionCall, (∀ c ∈ calls, c.hasChunks) →
      applyOptions (calls.map (OptionCall.option join)) builder.zero =
        .ret (lastOfEach join calls builder.zero)) ∧
    (∀ (h1 h2 : Option StringsMap) (b : builder),
      applyOptions [WithHeaders h1, WithHeaders h2] b = .ret { b with headers := h2 }) ∧
    (∀ (q1 q2 : Option StringsMap) (b : builder),
      applyOptions [WithQueryArgs q1, WithQueryArgs q2] b = .ret { b with queryArgs := q2 }) := by
  refine ⟨fun _ => rfl, ?_, ?_, fun calls h => applyOptions_calls join calls builder.zero h,
    fun _ _ _ => rfl, fun _ _ _ => rfl⟩
  · intro opts o b
    rw [applyOptions_append]
    cases applyOptions opts b with
    | crash msg => rfl
    | ret b1 =>
      simp only [applyOptions]
      cases o b1 <;> rfl
  · intro opts1 opts2 h
    unfold NewRequester
    rw [h]

/-- Witness of C12: two header maps and two hosts around a method. -/
theorem C12_options_in_order_last_wins_witness :
    applyOptions
        ([OptionCall.WithHeaders (some [("a", ["1"])]), .WithHost "first",
          .WithMethod Post, .WithHeaders (some [("b", ["2"])]), .WithHost "second"].map
          (OptionCall.option path.Join)) builder.zero =
      .ret { builder.zero with
             headers := some [("b", ["2"])], host := "second", method := Post } :=
  (C12_options_in_order_last_wins exampleStd path.Join).2.2.2.1
    [.WithHeaders (some [("a", ["1"])]), .WithHost "first", .WithMethod Post,
      .WithHeaders (some [("b", ["2"])]), .WithHost "second"]
    (by
      intro c hc
      simp only [List.mem_cons, List.mem_singleton, List.not_mem_nil, or_false] at hc
      rcases hc with rfl | rfl | rfl | rfl | rfl <;> trivial)

/-! ## Defaults -/

/-- C11 as stated fails: after `WithScheme(HTTPS)` and then `WithScheme("")`
a non-empty scheme was set and the last scheme set is empty, yet the
requester is built with the scheme "http". -/
theorem C11_scheme_reset_counterexample :
    ∃ r cs,
      NewRequester exampleStd
        ([OptionCall.WithHost "strickland-propane.com", .WithScheme HTTPS, .WithScheme ""].map
          (OptionCall.option exampleStd.pathJoin)) = .done (some r, none) cs ∧
      r.scheme = "http" ∧
      HTTPS ∈ [OptionCall.WithHost "strickland-propane.com", .WithScheme HTTPS,
        .WithScheme ""].filterMap OptionCall.scheme? ∧
      HTTPS ≠ "" ∧
      lastValue OptionCall.scheme? ""
        [OptionCall.WithHost "strickland-propane.com", .WithScheme HTTPS, .WithScheme ""] = "" :=
  ⟨_, _, rfl, rfl, by decide, by decide, rfl⟩

/-- C11 as amended: when `NewRequester` succeeds on a sequence of calls, the
scheme of the requester is "http" if the last scheme set is empty or none was
set, and the last scheme set otherwise; its method is "GET" if the last method
set is empty or none was set, and the last method set otherwise; host, path,
headers, query arguments and body are those of the last calls for them; and
the request was made by `http.NewRequest` from that method and from the URL
`formatURL` builds from that scheme, host and path, and carries that method. -/
theorem C11_scheme_and_method_defaults (std : Stdlib) (join : List String → String)
    (calls : List OptionCall) (r : builder) (cs : List Call)
    (h : NewRequester std (calls.map (OptionCall.option join)) = .done (some r, none) cs) :
    r.scheme =
      (if lastValue OptionCall.scheme? "" calls = "" then "http"
        else lastValue OptionCall.scheme? "" calls) ∧
    r.method =
      (if lastValue OptionCall.method? "" calls = "" then "GET"
        else lastValue OptionCall.method? "" calls) ∧
    r.host = lastValue OptionCall.host? "" calls ∧
    r.path = lastValue (OptionCall.path? join) "" calls ∧
    r.headers = lastValue OptionCall.headers? none calls ∧
    r.queryArgs = lastValue OptionCall.queryArgs? none calls ∧
    r.body = lastValue OptionCall.body? "" calls ∧
    ∃ req, r.req = some req ∧ req.Method = r.method ∧
      cs = [.NewRequest r.method (std.urlString (formatURL r.scheme r.host r.path)) r.body] := by
  cases happly : applyOptions (calls.map (OptionCall.option join)) builder.zero with
  | crash msg => simp [NewRequester, happly, Exec.ofResult, bind_crash] at h
  | ret b =>
    obtain ⟨-, hb⟩ := applyOptions_calls_ret join calls builder.zero b happly
    obtain ⟨-, req0, hnew, hr, hcs⟩ := NewRequester_success std _ b r cs happly h
    have hmethod := NewRequest_Method std _ _ _ req0
      (ite_length_ne_empty b.method defaultMethod (by decide)) hnew
    have hscheme : b.scheme = lastValue OptionCall.scheme? "" calls := by rw [hb]; rfl
    have hmeth : b.method = lastValue OptionCall.method? "" calls := by rw [hb]; rfl
    subst hr
    refine ⟨?_, ?_, ?_, ?_, ?_, ?_, ?_, ?_⟩
    · show (if b.scheme.length = 0 then defaultScheme else b.scheme) = _
      rw [ite_length_eq, hscheme]
      rfl
    · show (if b.method.length = 0 then defaultMethod else b.method) = _
      rw [ite_length_eq, hmeth]
      rfl
    · show b.host = _
      rw [hb]; rfl
    · show b.path = _
      rw [hb]; rfl
    · show b.headers = _
      rw [hb]; rfl
    · show b.queryArgs = _
      rw [hb]; rfl
    · show b.body = _
      rw [hb]; rfl
    · refine ⟨_, rfl, ?_, hcs⟩
      cases b.headers <;> cases b.queryArgs <;>
        simp only [addHeaders_Method, addQueryArgs_Method] <;> exact hmethod

/-- Witness of C11 as amended, on the sequence of its counterexample under
the example standard library. -/
theorem C11_scheme_and_method_defaults_witness :
    ∃ r cs,
      NewRequester exampleStd
        ([OptionCall.WithHost "strickland-propane.com", .WithScheme HTTPS, .WithScheme ""].map
          (OptionCall.option exampleStd.pathJoin)) = .done (some r, none) cs ∧
      r.scheme = "http" ∧ r.method = "GET" ∧ r.host = "strickland-propane.com" ∧
      cs = [.NewRequest "GET" "http://strickland-propane.com" ""] :=
  ⟨_, _, rfl,
    (C11_scheme_and_method_defaults exampleStd exampleStd.pathJoin
      [.WithHost "strickland-propane.com", .WithScheme HTTPS, .WithScheme ""] _ _ rfl).1,
    (C11_scheme_and_method_defaults exampleStd exampleStd.pathJoin
      [.WithHost "strickland-propane.com", .WithScheme HTTPS, .WithScheme ""] _ _ rfl).2.1,
    (C11_scheme_and_method_defaults exampleStd exampleStd.pathJoin
      [.WithHost "strickland-propane.com", .WithScheme HTTPS, .WithScheme ""] _ _ rfl).2.2.1,
    rfl⟩

/-! ## The bound handler and transport -/

/-- C13: the requester `NewRequester` returns holds the response handler the
options left when that is non-nil and `defaultResponseHandler` otherwise, and
the client the options left when that is non-nil and `http.DefaultClient`
otherwise. With a handler from the options, what `Make` returns after a
successful `Do` is that handler's result (its error, or no error and the
response as the handler left it, then decoded when a target is present),
whatever the status code: the default handler has no part in it, although it
returns an error for the statuses 0 and 69. -/
theorem C13_handler_and_client_bound (std : Stdlib) (opts : List BuilderOption)
    (b r : builder) (cs : List Call) (happly : applyOptions opts builder.zero = .ret b)
    (h : NewRequester std opts = .done (some r, none) cs) :
    (∀ handler, b.responseHandler = some handler → r.responseHandler = some handler) ∧
    (b.responseHandler = none → r.responseHandler = some defaultResponseHandler) ∧
    (∀ client, b.client = some client → r.client = some client) ∧
    (b.client = none → r.client = some std.defaultClient) ∧
    (∀ (τ : Type) (dec : Decoder τ) (handler : ResponseHandler) (client : Client)
        (req : Request) (ctx : Context) (target : Option τ) (resp resp1 : Option Response)
        (rErr : Option GoError),
      b.responseHandler = some handler → r.client = some client → r.req = some req →
      client req = .ret (resp, none) → handler resp = .ret (resp1, rErr) →
      (rErr ≠ none ∨ target = none) →
      r.Make dec (some ctx) target =
        .done { resp := resp1, err := rErr, target := target }
          [.Do req, .responseHandler resp]) ∧
    (∀ (τ : Type) (dec : Decoder τ) (handler : ResponseHandler) (client : Client)
        (req : Request) (ctx : Context) (t : τ) (resp : Option Response) (r1 : Response)
        (body : ReadCloser),
      b.responseHandler = some handler → r.client = some client → r.req = some req →
      client req = .ret (resp, none) → handler resp = .ret (some r1, none) →
      r1.Body = some body →
      r.Make dec (some ctx) (some t) =
        .done
          { resp := some { r1 with Body := some (body.decode dec t).2.Close },
            err := (dec body.available t).err,
            target := some (dec body.available t).target }
          [.Do req, .responseHandler resp, .Decode body.available, .closeBody]) ∧
    (∀ body : ReadCloser,
      defaultResponseHandler (some { StatusCode := 0, Body := some body }) =
          .ret (some { StatusCode := 0, Body := some (ReadAll body).2.Close },
            some (NewResponseError 0 body.available)) ∧
      defaultResponseHandler (some { StatusCode := 69, Body := some body }) =
          .ret (some { StatusCode := 69, Body := some (ReadAll body).2.Close },
            some (NewResponseError 69 body.available))) := by
  obtain ⟨-, req0, -, hr, -⟩ := NewRequester_success std opts b r cs happly h
  have hh : ∀ handler, b.responseHandler = some handler → r.responseHandler = some handler := by
    intro handler hb
    rw [hr]
    simp [hb]
  refine ⟨hh, ?_, ?_, ?_, ?_, ?_, ?_⟩
  · intro hb
    rw [hr]
    simp [hb]
  · intro client hb
    rw [hr]
    simp [hb]
  · intro hb
    rw [hr]
    simp [hb]
  · intro τ dec handler client req ctx target resp resp1 rErr hb hclient hreq hdo hrun hcase
    cases rErr with
    | some e =>
      exact Make_handler_error dec r req client handler ctx target resp resp1 e hreq hclient
        hdo (hh handler hb) hrun
    | none =>
      rcases hcase with hne | hnone
      · exact absurd rfl hne
      · subst hnone
        exact Make_no_target dec r req client handler ctx resp resp1 hreq hclient hdo
          (hh handler hb) hrun
  · intro τ dec handler client req ctx t resp r1 body hb hclient hreq hdo hrun hbody
    exact Make_decode dec r req client handler ctx t resp r1 body hreq hclient hdo
      (hh handler hb) hrun hbody
  · intro body
    have h0s : (0 : Int) ∉ successCodes := by decide
    have h0r : (0 : Int) ∉ redirectCodes := by decide
    have h69s : (69 : Int) ∉ successCodes := by decide
    have h69r : (69 : Int) ∉ redirectCodes := by decide
    exact ⟨defaultResponseHandler_failure _ body rfl h0s h0r,
      defaultResponseHandler_failure _ body rfl h69s h69r⟩

/-- Witness of C13: the test "happy path all options and target". The mock
transport answers status 0, the handler of the test sets 69 and returns nil,
and `Make` returns no error with the target decoded. -/
theorem C13_handler_and_client_bound_witness :
    ∃ r cs,
      NewRequester exampleStd (testOptions exampleStd (marshalTarget { SomeValue := "v" })) =
        .done (some r, none) cs ∧
      r.responseHandler = some (testHandler (marshalTarget { SomeValue := "v" })) ∧
      r.Make decodeTarget (some .background) (some { SomeValue := "" }) =
        .done
          { resp := some { StatusCode := 69, Body := some ⟨"", true, 1, 1⟩ },
            err := none,
            target := some { SomeValue := "v" } }
          [.Do
              { ctx := .background, Method := "GET",
                URL := { Scheme := "https", Host := "strickland-propane.com",
                         Path := "/dangit/bobby", RawQuery := "query=arg1&query=arg2" },
                Header := [("Traceability", ["path1", "path2"])],
                Body := marshalTarget { SomeValue := "v" },
                Host := "strickland-propane.com" },
            .responseHandler (some { StatusCode := 0, Body := some (ReadCloser.fresh "null") }),
            .Decode (marshalTarget { SomeValue := "v" }), .closeBody] :=
  ⟨_, _, rfl,
    (C13_handler_and_client_bound exampleStd
      (testOptions exampleStd (marshalTarget { SomeValue := "v" })) _ _ _ rfl rfl).1 _ rfl,
    (C13_handler_and_client_bound exampleStd
      (testOptions exampleStd (marshalTarget { SomeValue := "v" })) _ _ _ rfl rfl).2.2.2.2.2.1
      target decodeTarget (testHandler (marshalTarget { SomeValue := "v" }))
      (mockedClient 0 (.ok "null") none) _ .background { SomeValue := "" }
      (some { StatusCode := 0, Body := some (ReadCloser.fresh "null") })
      { StatusCode := 69, Body := some (ReadCloser.fresh (marshalTarget { SomeValue := "v" })) }
      (ReadCloser.fresh (marshalTarget { SomeValue := "v" })) rfl rfl rfl rfl rfl rfl⟩

/-! ## Joined path chunks -/

theorem takeWhile_segment (seg tail : List Char) (hslash : '/' ∉ seg)
    (htail : tail = [] ∨ ∃ t, tail = '/' :: t) :
    (seg ++ tail).takeWhile (fun x => x ≠ '/') = seg ∧
    (seg ++ tail).dropWhile (fun x => x ≠ '/') = tail := by
  have hall : ∀ a ∈ seg, (fun x => decide (x ≠ '/')) a = true := by
    intro a ha
    have : a ≠ '/' := fun h => hslash (h ▸ ha)
    simpa using this
  rw [List.takeWhile_append_of_pos hall, List.dropWhile_append_of_pos hall]
  rcases htail with rfl | ⟨t, rfl⟩
  · simp
  · simp

theorem cleanLoop_nil (rooted : Bool) (fuel : Nat) (out : List Char) (dotdot : Nat) :
    path.cleanLoop rooted fuel [] out dotdot = out := by
  cases fuel <;> rfl

theorem cleanLoop_slash (rooted : Bool) (fuel : Nat) (t out : List Char) (dotdot : Nat) :
    path.cleanLoop rooted (fuel + 1) ('/' :: t) out dotdot =
      path.cleanLoop rooted fuel t out dotdot := by
  simp [path.cleanLoop]

theorem cleanLoop_segment (fuel : Nat) (seg tail out : List Char) (dotdot : Nat)
    (hne : seg ≠ []) (hslash : '/' ∉ seg) (hdot : seg ≠ ['.']) (hdotdot : seg ≠ ['.', '.'])
    (htail : tail = [] ∨ ∃ t, tail = '/' :: t) :
    path.cleanLoop false (fuel + 1) (seg ++ tail) out dotdot =
      path.cleanLoop false fuel tail
        ((if out.length ≠ 0 then out ++ ['/'] else out) ++ seg) dotdot := by
  obtain ⟨htake, hdrop⟩ := takeWhile_segment seg tail hslash htail
  cases seg with
  | nil => exact absurd rfl hne
  | cons c cs =>
    have hc : c ≠ '/' := fun h => hslash (h ▸ List.mem_cons_self c cs)
    have h2 : ¬ (c = '.' ∧ (cs ++ tail = [] ∨ (cs ++ tail).head? = some '/')) := by
      rintro ⟨rfl, h | h⟩
      · have : cs = [] := (List.append_eq_nil.mp h).1
        exact hdot (by rw [this])
      · cases cs with
        | nil => exact hdot rfl
        | cons x xs =>
          simp only [List.cons_append, List.head?_cons, Option.some.injEq] at h
          exact hslash (h ▸ List.mem_cons_of_mem _ (List.mem_cons_self x xs))
    have h3 : ¬ (c = '.' ∧ (cs ++ tail).head? = some '.' ∧
        ((cs ++ tail).tail = [] ∨ (cs ++ tail).tail.head? = some '/')) := by
      rintro ⟨rfl, hh, ht⟩
      cases cs with
      | nil =>
        rcases htail with rfl | ⟨t, rfl⟩
        · simp at hh
        · simp at hh
      | cons x xs =>
        simp only [List.cons_append, List.head?_cons, Option.some.injEq] at hh
        subst hh
        simp only [List.cons_append, List.tail_cons] at ht
        rcases ht with ht | ht
        · have : xs = [] := (List.append_eq_nil.mp ht).1
          exact hdotdot (by rw [this])
        · cases xs with
          | nil => exact hdotdot rfl
          | cons y ys =>
            simp only [List.cons_append, List.head?_cons, Option.some.injEq] at ht
            exact hslash (ht ▸ List.mem_cons_of_mem _ (List.mem_cons_of_mem _
              (List.mem_cons_self y ys)))
    rw [List.cons_append] at htake hdrop ⊢
    rw [path.cleanLoop]
    simp only [hc, if_false, h2, h3, htake, hdrop]
    simp

theorem cleanLoop_segments (segs : List (List Char)) :
    ∀ (seg out : List Char) (dotdot fuel : Nat),
      (∀ s ∈ seg :: segs, s ≠ [] ∧ '/' ∉ s ∧ s ≠ ['.'] ∧ s ≠ ['.', '.']) →
      (seg ++ segs.flatMap (fun s => '/' :: s)).length ≤ fuel →
      path.cleanLoop false fuel (seg ++ segs.flatMap (fun s => '/' :: s)) out dotdot =
        (if out.length ≠ 0 then out ++ ['/'] else out) ++ seg ++
          segs.flatMap (fun s => '/' :: s) := by
  induction segs with
  | nil =>
    intro seg out dotdot fuel hgood hfuel
    obtain ⟨hne, hslash, hdot, hdotdot⟩ := hgood seg (List.mem_cons_self _ _)
    simp only [List.flatMap_nil, List.append_nil] at hfuel ⊢
    cases fuel with
    | zero =>
      have : seg = [] := List.length_eq_zero.mp (Nat.le_zero.mp hfuel)
      exact absurd this hne
    | succ fuel =>
      have h := cleanLoop_segment fuel seg [] out dotdot hne hslash hdot hdotdot (Or.inl rfl)
      rw [List.append_nil] at h
      rw [h, cleanLoop_nil]
  | cons s2 rest ih =>
    intro seg out dotdot fuel hgood hfuel
    obtain ⟨hne, hslash, hdot, hdotdot⟩ := hgood seg (List.mem_cons_self _ _)
    have hgood2 : ∀ s ∈ s2 :: rest, s ≠ [] ∧ '/' ∉ s ∧ s ≠ ['.'] ∧ s ≠ ['.', '.'] :=
      fun s hs => hgood s (List.mem_cons_of_mem _ hs)
    have hlen : 1 ≤ seg.length := List.length_pos.mpr hne
    simp only [List.flatMap_cons, List.cons_append, List.length_append, List.length_cons]
      at hfuel ⊢
    cases fuel with
    | zero => omega
    | succ fuel =>
      rw [cleanLoop_segment fuel seg _ out dotdot hne hslash hdot hdotdot
        (Or.inr ⟨_, rfl⟩)]
      cases fuel with
      | zero => omega
      | succ fuel =>
        rw [cleanLoop_slash, ih s2 _ dotdot fuel hgood2
          (by simp only [List.length_append]; omega)]
        have hout : ((if out.length ≠ 0 then out ++ ['/'] else out) ++ seg).length ≠ 0 := by
          simp only [List.length_append]
          omega
        simp only [hout, ne_eq, not_false_eq_true, if_true, List.append_assoc,
          List.singleton_append, List.cons_append, List.nil_append]

theorem joinBuffer_nonempty (es : List String) :
    ∀ buf : List Char, buf ≠ [] →
      es.foldl
          (fun buf e =>
            if buf.length > 0 ∨ e ≠ "" then
              (if buf.length > 0 then buf ++ ['/'] else buf) ++ e.toList
            else buf)
          buf =
        buf ++ es.flatMap (fun e => '/' :: e.toList) := by
  induction es with
  | nil => intro buf _; simp
  | cons e rest ih =>
    intro buf hbuf
    have hlen : buf.length > 0 := List.length_pos.mpr hbuf
    simp only [List.foldl_cons, hlen, true_or, if_true, List.flatMap_cons]
    rw [ih _ (by simp)]
    simp

theorem intercalate_go_data (sep : String) (es : List String) :
    ∀ acc : String,
      (String.intercalate.go acc sep es).data =
        acc.data ++ es.flatMap (fun e => sep.data ++ e.data) := by
  induction es with
  | nil => intro acc; simp [String.intercalate.go]
  | cons e rest ih =>
    intro acc
    simp [String.intercalate.go, ih, List.append_assoc]

theorem intercalate_slash_data (e : String) (es : List String) :
    ("/".intercalate (e :: es)).data = e.data ++ es.flatMap (fun x => '/' :: x.data) := by
  simp only [String.intercalate, intercalate_go_data]
  rfl

theorem Join_chunks (chunks : List String) (hne : chunks ≠ [])
    (hgood : ∀ c ∈ chunks, c ≠ "" ∧ '/' ∉ c.toList ∧ c ≠ "." ∧ c ≠ "..") :
    path.Join chunks = "/".intercalate chunks := by
  cases chunks with
  | nil => exact absurd rfl hne
  | cons e es =>
    obtain ⟨hene, heslash, -, -⟩ := hgood e (List.mem_cons_self _ _)
    have hedata : e.data ≠ [] := fun h => hene (String.ext h)
    have hsegs : ∀ s ∈ e.data :: es.map String.data,
        s ≠ [] ∧ '/' ∉ s ∧ s ≠ ['.'] ∧ s ≠ ['.', '.'] := by
      intro s hs
      have : ∃ c ∈ e :: es, c.data = s := by
        rcases List.mem_cons.mp hs with rfl | hs
        · exact ⟨e, List.mem_cons_self _ _, rfl⟩
        · obtain ⟨c, hc, rfl⟩ := List.mem_map.mp hs
          exact ⟨c, List.mem_cons_of_mem _ hc, rfl⟩
      obtain ⟨c, hc, rfl⟩ := this
      obtain ⟨h1, h2, h3, h4⟩ := hgood c hc
      exact ⟨fun h => h1 (String.ext h), h2, fun h => h3 (String.ext h),
        fun h => h4 (String.ext h)⟩
    have hflat : es.flatMap (fun x => '/' :: x.toList) =
        (es.map String.data).flatMap (fun s => '/' :: s) := by
      simp [List.flatMap_map, String.toList]
    have hsum : ¬ ((e :: es).map String.length).sum = 0 := by
      have : 0 < e.length := List.length_pos.mpr hedata
      simp only [List.map_cons, List.sum_cons]
      omega
    have hbuf : (e :: es).foldl
          (fun buf x =>
            if buf.length > 0 ∨ x ≠ "" then
              (if buf.length > 0 then buf ++ ['/'] else buf) ++ x.toList
            else buf)
          [] = e.data ++ (es.map String.data).flatMap (fun s => '/' :: s) := by
      simp only [List.foldl_cons, List.length_nil, gt_iff_lt, Nat.lt_irrefl, false_or, hene,
        ne_eq, not_false_eq_true, if_true, if_false, List.nil_append]
      rw [joinBuffer_nonempty es e.toList hedata, hflat]
      rfl
    have hloop := cleanLoop_segments (es.map String.data) e.data [] 0
      (e.data ++ (es.map String.data).flatMap (fun s => '/' :: s)).length hsegs (Nat.le_refl _)
    simp only [List.length_nil, ne_eq, not_true_eq_false, if_false, List.nil_append] at hloop
    have hhead : ¬ ((e.data ++ (es.map String.data).flatMap (fun s => '/' :: s)).head? =
        some '/') := by
      cases hd : e.data with
      | nil => exact absurd hd hedata
      | cons c cs =>
        simp only [List.cons_append, List.head?_cons, Option.some.injEq]
        intro hc
        apply heslash
        show '/' ∈ e.data
        rw [hd, hc]
        exact List.mem_cons_self _ _
    have hpne : ¬ (String.mk (e.data ++ (es.map String.data).flatMap (fun s => '/' :: s)) = "") := by
      intro h
      have := congrArg String.data h
      simp only at this
      exact hedata (List.append_eq_nil.mp this).1
    have hl : ¬ (e.data ++ (es.map String.data).flatMap (fun s => '/' :: s)).length = 0 := by
      have : 0 < e.data.length := List.length_pos.mpr hedata
      simp only [List.length_append]
      omega
    unfold path.Join
    rw [if_neg hsum, hbuf]
    unfold path.Clean
    simp only [hpne, if_false, String.toList, hhead, decide_False, Bool.false_eq_true, hloop, hl]
    apply String.ext
    rw [intercalate_slash_data, ← hflat]
    rfl

/-- C14: for a non-empty list of chunks, each non-empty, without a slash and
other than "." and "..", the option of `WithPath` over `path.Join` sets the
path of the builder to the chunks with one slash between consecutive chunks;
`formatURL` puts that path unchanged in the URL, and it is the text of that
URL that `NewRequester` hands to `http.NewRequest`. -/
theorem C14_WithPath_joins_chunks (b : builder) (chunks : List String) (hne : chunks ≠ [])
    (hgood : ∀ c ∈ chunks, c ≠ "" ∧ '/' ∉ c.toList ∧ c ≠ "." ∧ c ≠ "..") :
    WithPath path.Join chunks b = .ret { b with path := "/".intercalate chunks } ∧
    (∀ (scheme : Scheme) (host : String),
      (formatURL scheme host ("/".intercalate chunks)).Path = "/".intercalate chunks) ∧
    (∀ (std : Stdlib) (opts : List BuilderOption) (b1 r : builder) (cs : List Call),
      applyOptions opts builder.zero = .ret b1 → b1.path = "/".intercalate chunks →
      NewRequester std opts = .done (some r, none) cs →
      ∃ (u : URL) (method : String),
        u.Path = "/".intercalate chunks ∧ r.path = "/".intercalate chunks ∧
        cs = [.NewRequest method (std.urlString u) b1.body]) := by
  refine ⟨?_, fun _ _ => rfl, ?_⟩
  · cases chunks with
    | nil => exact absurd rfl hne
    | cons c cs => rw [WithPath_cons, Join_chunks (c :: cs) hne hgood]
  · intro std opts b1 r cs happly hpath h
    obtain ⟨-, req0, -, hr, hcs⟩ := NewRequester_success std opts b1 r cs happly h
    refine ⟨formatURL (if b1.scheme.length = 0 then defaultScheme else b1.scheme) b1.host
      b1.path, _, hpath, ?_, hcs⟩
    rw [hr]
    exact hpath

/-- Witness of C14: the chunks "a" and "b" give the path "a/b". -/
theorem C14_WithPath_joins_chunks_witness :
    WithPath path.Join ["a", "b"] builder.zero = .ret { builder.zero with path := "a/b" } :=
  (C14_WithPath_joins_chunks builder.zero ["a", "b"] (by decide) (by decide)).1

/-! ## Values added to a map -/

theorem get_appendValue_self (m : StringsMap) (k v : String) :
    StringsMap.get (appendValue m k v) k = StringsMap.get m k ++ [v] := by
  induction m with
  | nil => simp [appendValue, StringsMap.get]
  | cons kv rest ih =>
    obtain ⟨k0, vs⟩ := kv
    by_cases h : k0 = k
    · simp [appendValue, StringsMap.get, h]
    · simp [appendValue, StringsMap.get, h, ih]

theorem get_appendValue_other (m : StringsMap) (k key v : String) (hne : k ≠ key) :
    StringsMap.get (appendValue m k v) key = StringsMap.get m key := by
  induction m with
  | nil => simp [appendValue, StringsMap.get, hne]
  | cons kv rest ih =>
    obtain ⟨k0, vs⟩ := kv
    by_cases h : k0 = k
    · subst h
      simp [appendValue, StringsMap.get, hne]
    · by_cases h2 : k0 = key
      · subst h2
        simp [appendValue, StringsMap.get, h]
      · simp [appendValue, StringsMap.get, h, h2, ih]

theorem get_appendValues (vs : List String) (k key : String) :
    ∀ m : StringsMap,
      StringsMap.get (vs.foldl (fun h v => appendValue h k v) m) key =
        StringsMap.get m key ++ (if k = key then vs else []) := by
  induction vs with
  | nil => intro m; simp
  | cons v rest ih =>
    intro m
    rw [List.foldl_cons, ih]
    by_cases h : k = key
    · subst h
      simp [get_appendValue_self]
    · simp [h, get_appendValue_other m k key v h]

theorem get_appendEntries (f : String → String) (entries : StringsMap) (key : String) :
    ∀ m : StringsMap,
      StringsMap.get
          (entries.foldl (fun h kv => kv.2.foldl (fun h v => appendValue h (f kv.1) v) h) m)
          key =
        StringsMap.get m key ++
          (entries.filter (fun kv => f kv.1 = key)).flatMap (fun kv => kv.2) := by
  induction entries with
  | nil => intro m; simp
  | cons kv rest ih =>
    intro m
    rw [List.foldl_cons, ih, get_appendValues]
    by_cases h : f kv.1 = key
    · simp [h, List.filter_cons]
    · simp [h, List.filter_cons]

theorem filter_key_of_nodup (g : String × List String → String) (entries : StringsMap)
    (hnodup : (entries.map g).Nodup) (kv : String × List String) (hmem : kv ∈ entries) :
    entries.filter (fun x => g x = g kv) = [kv] := by
  induction entries with
  | nil => exact absurd hmem (List.not_mem_nil kv)
  | cons x rest ih =>
    rw [List.map_cons, List.nodup_cons] at hnodup
    rcases List.mem_cons.mp hmem with rfl | hmem
    · have hrest : rest.filter (fun x => g x = g kv) = [] := by
        rw [List.filter_eq_nil_iff]
        intro y hy
        have : g y ≠ g kv := fun h => hnodup.1 (h ▸ List.mem_map_of_mem g hy)
        simpa using this
      simp [List.filter_cons, hrest]
    · have hne : g x ≠ g kv := fun h => hnodup.1 (h ▸ List.mem_map_of_mem g hmem)
      simp [List.filter_cons, hne, ih hnodup.2 hmem]

theorem filter_key_of_not_mem (g : String × List String → String) (entries : StringsMap)
    (key : String) (h : key ∉ entries.map g) :
    entries.filter (fun x => g x = key) = [] := by
  rw [List.filter_eq_nil_iff]
  intro y hy
  have : g y ≠ key := fun he => h (he ▸ List.mem_map_of_mem g hy)
  simpa using this

/-! ## Query arguments and headers of the request -/

/-- C15: for a map of query arguments (its keys distinct, in any iteration
order) added to a request without a query, the query string is the encoding
by `Values.Encode` of values that hold under every key of the map exactly the
values supplied for it, in the supplied order, and nothing under any other
key; adding headers afterwards does not change it. -/
theorem C15_query_values_kept_in_order (std : Stdlib) (r : Request) (args : StringsMap)
    (hkeys : (args.map Prod.fst).Nodup) (hempty : std.parseQuery r.URL.RawQuery = []) :
    (∃ q : StringsMap,
      (addQueryArgs std r args).URL.RawQuery = std.encodeQuery q ∧
      (∀ k vs, (k, vs) ∈ args → StringsMap.get q k = vs) ∧
      (∀ k, k ∉ args.map Prod.fst → StringsMap.get q k = [])) ∧
    (∀ headers : StringsMap,
      (addHeaders std (addQueryArgs std r args) headers).URL.RawQuery =
        (addQueryArgs std r args).URL.RawQuery) := by
  refine ⟨⟨_, rfl, ?_, ?_⟩, fun _ => rfl⟩
  · intro k vs hmem
    rw [hempty]
    have h := get_appendEntries (fun x => x) args k []
    simp only [Values.Add]
    rw [h, filter_key_of_nodup Prod.fst args hkeys (k, vs) hmem]
    simp [StringsMap.get]
  · intro k hk
    rw [hempty]
    have h := get_appendEntries (fun x => x) args k []
    simp only [Values.Add]
    rw [h, filter_key_of_not_mem Prod.fst args k hk]
    simp [StringsMap.get]

/-- Witness of C15: the map with the one key "q" and the values "x" and "y"
gives the query string "q=x&q=y" under the example standard library. -/
theorem C15_query_values_kept_in_order_witness :
    ((∃ q : StringsMap,
      (addQueryArgs exampleStd exampleRequest [("q", ["x", "y"])]).URL.RawQuery =
        exampleStd.encodeQuery q ∧
      (∀ k vs, (k, vs) ∈ [("q", ["x", "y"])] → StringsMap.get q k = vs) ∧
      (∀ k, k ∉ [("q", ["x", "y"])].map Prod.fst → StringsMap.get q k = [])) ∧
    (∀ headers : StringsMap,
      (addHeaders exampleStd (addQueryArgs exampleStd exampleRequest [("q", ["x", "y"])])
          headers).URL.RawQuery =
        (addQueryArgs exampleStd exampleRequest [("q", ["x", "y"])]).URL.RawQuery)) ∧
    (addQueryArgs exampleStd exampleRequest [("q", ["x", "y"])]).URL.RawQuery = "q=x&q=y" :=
  ⟨C15_query_values_kept_in_order exampleStd exampleRequest [("q", ["x", "y"])] (by decide) rfl,
    rfl⟩

/-- C16 as stated fails: two header names with the same canonical form, "a"
and "A", end under the one name "A" with the values of both, so the request
carries nothing under "a" and more than the values supplied for "A". -/
theorem C16_colliding_names_counterexample :
    (addHeaders exampleStd exampleRequest [("a", ["1"]), ("A", ["2"])]).Header =
      [("A", ["1", "2"])] ∧
    StringsMap.get (addHeaders exampleStd exampleRequest [("a", ["1"]), ("A", ["2"])]).Header
      "a" = [] ∧
    StringsMap.get (addHeaders exampleStd exampleRequest [("a", ["1"]), ("A", ["2"])]).Header
      "A" = ["1", "2"] :=
  ⟨rfl, rfl, rfl⟩

/-- C16 as amended: for a map of headers whose names have pairwise distinct
canonical forms, added to a request without headers, the request carries
under the canonical form of every name of the map exactly the values supplied
for that name, in the supplied order, and nothing under a name that is not
the canonical form of a supplied name. -/
theorem C16_header_values_under_canonical_name (std : Stdlib) (r : Request)
    (headers : StringsMap)
    (hnames : (headers.map (fun kv => std.canonicalKey kv.1)).Nodup)
    (hfresh : r.Header = []) :
    (∀ k vs, (k, vs) ∈ headers →
      StringsMap.get (addHeaders std r headers).Header (std.canonicalKey k) = vs) ∧
    (∀ key, key ∉ headers.map (fun kv => std.canonicalKey kv.1) →
      StringsMap.get (addHeaders std r headers).Header key = []) := by
  refine ⟨?_, ?_⟩
  · intro k vs hmem
    have h := get_appendEntries std.canonicalKey headers (std.canonicalKey k) r.Header
    simp only [addHeaders, Header.Add]
    rw [h, hfresh,
      filter_key_of_nodup (fun kv => std.canonicalKey kv.1) headers hnames (k, vs) hmem]
    simp [StringsMap.get]
  · intro key hkey
    have h := get_appendEntries std.canonicalKey headers key r.Header
    simp only [addHeaders, Header.Add]
    rw [h, hfresh, filter_key_of_not_mem (fun kv => std.canonicalKey kv.1) headers key hkey]
    simp [StringsMap.get]

/-- Witness of C16 as amended: the headers of the test "happy path all
options and target". -/
theorem C16_header_values_under_canonical_name_witness :
    StringsMap.get
      (addHeaders exampleStd exampleRequest [("traceability", ["path1", "path2"])]).Header
      "Traceability" = ["path1", "path2"] :=
  (C16_header_values_under_canonical_name exampleStd exampleRequest
    [("traceability", ["path1", "path2"])] (by decide) rfl).1
    "traceability" ["path1", "path2"] (List.mem_singleton.mpr rfl)

/-! ## The response returned -/

theorem Make_handler_crash {τ : Type} (dec : Decoder τ) (b : builder) (req : Request)
    (client : Client) (handler : ResponseHandler) (ctx : Context) (target : Option τ)
    (resp : Option Response) (msg : String)
    (hreq : b.req = some req) (hclient : b.client = some client)
    (hdo : client req = .ret (resp, none)) (hhandler : b.responseHandler = some handler)
    (hrun : handler resp = .crash msg) :
    b.Make dec (some ctx) target = .crash msg := by
  simp [builder.Make, hreq, hclient, hdo, hhandler, hrun, Request.WithContext, Exec.ofResult,
    Exec.deref, Exec.call, bind_done, bind_crash, pure_eq_done]

theorem Make_nil_body {τ : Type} (dec : Decoder τ) (b : builder) (req : Request)
    (client : Client) (handler : ResponseHandler) (ctx : Context) (t : τ)
    (resp : Option Response) (r1 : Response)
    (hreq : b.req = some req) (hclient : b.client = some client)
    (hdo : client req = .ret (resp, none)) (hhandler : b.responseHandler = some handler)
    (hrun : handler resp = .ret (some r1, none)) (hbody : r1.Body = none) :
    b.Make dec (some ctx) (some t) = .crash "nil pointer dereference" := by
  simp [builder.Make, hreq, hclient, hdo, hhandler, hrun, hbody, Request.WithContext,
    Exec.ofResult, Exec.deref, Exec.call, bind_done, bind_crash, pure_eq_done]

theorem defaultResponseHandler_keepsPointer : keepsPointer defaultResponseHandler := by
  intro resp resp1 err h
  cases resp with
  | none => simp [defaultResponseHandler] at h
  | some r =>
    by_cases hs : r.StatusCode ∈ successCodes
    · rw [defaultResponseHandler_success r hs] at h
      cases h
      rfl
    · by_cases hr : r.StatusCode ∈ redirectCodes
      · rw [defaultResponseHandler_redirect r hr] at h
        cases h
        rfl
      · cases hb : r.Body with
        | none => simp [defaultResponseHandler, hs, hr, hb] at h
        | some body =>
          rw [defaultResponseHandler_failure r body hb hs hr] at h
          cases h
          rfl

/-- C18: for a transport whose response is non-nil whenever its error is nil
and a handler that is a function of the response pointer: on a transport
error `Make` returns a nil response with that error, whatever response came
with it; after a handler error, without a target, and after decoding (with a
nil or a non-nil decoder error alike) it returns the non-nil response of the
transport in the state the handler and, when decoding, `closeBody` left it;
so whenever `Make` returns, its response is nil exactly when the transport
returned an error. -/
theorem C18_nil_response_iff_transport_error {τ : Type} (dec : Decoder τ) (b : builder)
    (req : Request) (client : Client) (handler : ResponseHandler) (ctx : Context)
    (target : Option τ) (resp : Option Response) (err : Option GoError)
    (hreq : b.req = some req) (hclient : b.client = some client)
    (hhandler : b.responseHandler = some handler) (hkeeps : keepsPointer handler)
    (hdo : client req = .ret (resp, err)) (hresp : err = none → resp ≠ none) :
    (∀ e, err = some e →
      b.Make dec (some ctx) target =
        .done { resp := none, err := some e, target := target } [.Do req]) ∧
    (err = none → ∀ resp1 rErr, handler resp = .ret (resp1, rErr) →
      resp1 ≠ none ∧
      (rErr ≠ none →
        b.Make dec (some ctx) target =
          .done { resp := resp1, err := rErr, target := target }
            [.Do req, .responseHandler resp]) ∧
      (rErr = none → target = none →
        b.Make dec (some ctx) target =
          .done { resp := resp1, err := none, target := none }
            [.Do req, .responseHandler resp]) ∧
      (rErr = none → ∀ t r1 body, target = some t → resp1 = some r1 → r1.Body = some body →
        b.Make dec (some ctx) target =
          .done
            { resp := some { r1 with Body := some (body.decode dec t).2.Close },
              err := (dec body.available t).err,
              target := some (dec body.available t).target }
            [.Do req, .responseHandler resp, .Decode body.available, .closeBody])) ∧
    (∀ out calls, b.Make dec (some ctx) target = .done out calls →
      (out.resp = none ↔ err ≠ none)) := by
  have hA : ∀ e, err = some e →
      b.Make dec (some ctx) target =
        .done { resp := none, err := some e, target := target } [.Do req] := by
    intro e he
    subst he
    exact Make_transport_error dec b req client ctx target resp e hreq hclient hdo
  have hB : err = none → ∀ resp1 rErr, handler resp = .ret (resp1, rErr) →
      resp1 ≠ none ∧
      (rErr ≠ none →
        b.Make dec (some ctx) target =
          .done { resp := resp1, err := rErr, target := target }
            [.Do req, .responseHandler resp]) ∧
      (rErr = none → target = none →
        b.Make dec (some ctx) target =
          .done { resp := resp1, err := none, target := none }
            [.Do req, .responseHandler resp]) ∧
      (rErr = none → ∀ t r1 body, target = some t → resp1 = some r1 → r1.Body = some body →
        b.Make dec (some ctx) target =
          .done
            { resp := some { r1 with Body := some (body.decode dec t).2.Close },
              err := (dec body.available t).err,
              target := some (dec body.available t).target }
            [.Do req, .responseHandler resp, .Decode body.available, .closeBody]) := by
    intro he resp1 rErr hrun
    subst he
    have hsome : resp1 ≠ none := by
      have h1 := hkeeps resp resp1 rErr hrun
      have h2 : resp.isSome = true := Option.isSome_iff_ne_none.mpr (hresp rfl)
      rw [h2] at h1
      exact Option.isSome_iff_ne_none.mp h1
    refine ⟨hsome, ?_, ?_, ?_⟩
    · intro hne
      cases rErr with
      | none => exact absurd rfl hne
      | some e =>
        exact Make_handler_error dec b req client handler ctx target resp resp1 e hreq
          hclient hdo hhandler hrun
    · intro hnone htarget
      subst hnone htarget
      exact Make_no_target dec b req client handler ctx resp resp1 hreq hclient hdo hhandler
        hrun
    · intro hnone t r1 body htarget hr1 hbody
      subst hnone htarget hr1
      exact Make_decode dec b req client handler ctx t resp r1 body hreq hclient hdo
        hhandler hrun hbody
  refine ⟨hA, hB, ?_⟩
  intro out calls hmake
  cases err with
  | some e =>
    rw [hA e rfl] at hmake
    cases hmake
    simp
  | none =>
    simp only [ne_eq, not_true_eq_false, iff_false]
    cases hrun : handler resp with
    | crash msg =>
      rw [Make_handler_crash dec b req client handler ctx target resp msg hreq hclient hdo
        hhandler hrun] at hmake
      cases hmake
    | ret p =>
      obtain ⟨resp1, rErr⟩ := p
      obtain ⟨hsome, herr, hnotarget, hdecode⟩ := hB rfl resp1 rErr hrun
      cases rErr with
      | some e =>
        rw [herr (by simp)] at hmake
        cases hmake
        exact hsome
      | none =>
        cases target with
        | none =>
          rw [hnotarget rfl rfl] at hmake
          cases hmake
          exact hsome
        | some t =>
          cases resp1 with
          | none => exact absurd rfl hsome
          | some r1 =>
            cases hbody : r1.Body with
            | none =>
              rw [Make_nil_body dec b req client handler ctx t resp r1 hreq hclient hdo
                hhandler hrun hbody] at hmake
              cases hmake
            | some body =>
              rw [hdecode rfl t r1 body rfl rfl hbody] at hmake
              cases hmake
              simp

/-- Witness of C18: when the mock transport returns a response together with
an error, `Make` returns a nil response; when it returns status 420 without
an error, `Make` returns that response with the error of the default handler. -/
theorem C18_nil_response_iff_transport_error_witness :
    ({ exampleRequester 200 with
        client := some (mockedClient 200 (.ok "null") (some (.other "timeout"))) } : builder).Make
        decodeTarget (some .background) none =
      .done { resp := none, err := some (.other "timeout"), target := none }
        [.Do exampleRequest] ∧
    (exampleRequester 420).Make decodeTarget (some .background) none =
      .done
        { resp := some { StatusCode := 420, Body := some ⟨"", true, 1, 1⟩ },
          err := some (NewResponseError 420 "null"),
          target := none }
        [.Do exampleRequest,
          .responseHandler (some { StatusCode := 420, Body := some (ReadCloser.fresh "null") })] :=
  ⟨(C18_nil_response_iff_transport_error decodeTarget
      { exampleRequester 200 with
        client := some (mockedClient 200 (.ok "null") (some (.other "timeout"))) }
      exampleRequest (mockedClient 200 (.ok "null") (some (.other "timeout")))
      defaultResponseHandler .background none
      (some { StatusCode := 200, Body := some (ReadCloser.fresh "null") })
      (some (.other "timeout")) rfl rfl rfl defaultResponseHandler_keepsPointer rfl
      (fun h => nomatch h)).1 (.other "timeout") rfl,
    ((C18_nil_response_iff_transport_error decodeTarget (exampleRequester 420) exampleRequest
      (mockedClient 420 (.ok "null") none) defaultResponseHandler .background none
      (some { StatusCode := 420, Body := some (ReadCloser.fresh "null") }) none rfl rfl rfl
      defaultResponseHandler_keepsPointer rfl (fun _ h => nomatch h)).2.1 rfl
      (some { StatusCode := 420, Body := some ⟨"", true, 1, 1⟩ })
      (some (NewResponseError 420 "null")) rfl).2.1 (fun h => nomatch h)⟩

end GoRequest
